import Mathlib

/-!
Verification of the conversation-orchestration engine of the AI Health
Companion repository: the FHIR minimizer (`src/utils/fhir_minimizer.py`),
the safety interceptor (`src/llm/prompts.py`), the orchestrator
(`src/llm/orchestrator.py`) and the provider-search ZIP normalization
(`src/tools/provider_search.py`), shallowly embedded over a model of
Python values.  External collaborators (the OpenAI client, `json.loads`
and `json.dumps`, the HTTP provider API) are parameters of the embedding.
Python exceptions are modelled with `Except String`, the error string
naming the exception class.
-/

set_option autoImplicit false

/-- A Python value as used by this code base: `None`, booleans, integers,
strings, lists, and string-keyed dictionaries (modelled as association
lists in insertion order; every dictionary the repository builds has
distinct keys). -/
inductive PyVal where
  | none
  | bool (b : Bool)
  | int (n : Int)
  | str (s : String)
  | list (l : List PyVal)
  | dict (d : List (String × PyVal))

mutual

/-- Decidable equality of `PyVal`, by hand because automatic derivation
does not support this nested inductive. -/
def PyVal.decEq : (a b : PyVal) → Decidable (a = b)
  | .none, .none => .isTrue rfl
  | .bool x, .bool y =>
    if h : x = y then .isTrue (by rw [h]) else .isFalse (by intro hh; injection hh; contradiction)
  | .int x, .int y =>
    if h : x = y then .isTrue (by rw [h]) else .isFalse (by intro hh; injection hh; contradiction)
  | .str x, .str y =>
    if h : x = y then .isTrue (by rw [h]) else .isFalse (by intro hh; injection hh; contradiction)
  | .list x, .list y =>
    match PyVal.decEqList x y with
    | .isTrue h => .isTrue (by rw [h])
    | .isFalse h => .isFalse (by intro hh; injection hh; contradiction)
  | .dict x, .dict y =>
    match PyVal.decEqDict x y with
    | .isTrue h => .isTrue (by rw [h])
    | .isFalse h => .isFalse (by intro hh; injection hh; contradiction)
  | .none, .bool _ | .none, .int _ | .none, .str _ | .none, .list _ | .none, .dict _
  | .bool _, .none | .bool _, .int _ | .bool _, .str _ | .bool _, .list _ | .bool _, .dict _
  | .int _, .none | .int _, .bool _ | .int _, .str _ | .int _, .list _ | .int _, .dict _
  | .str _, .none | .str _, .bool _ | .str _, .int _ | .str _, .list _ | .str _, .dict _
  | .list _, .none | .list _, .bool _ | .list _, .int _ | .list _, .str _ | .list _, .dict _
  | .dict _, .none | .dict _, .bool _ | .dict _, .int _ | .dict _, .str _ | .dict _, .list _ =>
    .isFalse (fun h => PyVal.noConfusion h)

/-- Decidable equality of lists of `PyVal`. -/
def PyVal.decEqList : (a b : List PyVal) → Decidable (a = b)
  | [], [] => .isTrue rfl
  | [], _ :: _ => .isFalse (fun h => List.noConfusion h)
  | _ :: _, [] => .isFalse (fun h => List.noConfusion h)
  | x :: xs, y :: ys =>
    match PyVal.decEq x y with
    | .isFalse h => .isFalse (by intro hh; injection hh; contradiction)
    | .isTrue h1 =>
      match PyVal.decEqList xs ys with
      | .isTrue h2 => .isTrue (by rw [h1, h2])
      | .isFalse h => .isFalse (by intro hh; injection hh; contradiction)

/-- Decidable equality of string-keyed association lists of `PyVal`. -/
def PyVal.decEqDict : (a b : List (String × PyVal)) → Decidable (a = b)
  | [], [] => .isTrue rfl
  | [], _ :: _ => .isFalse (fun h => List.noConfusion h)
  | _ :: _, [] => .isFalse (fun h => List.noConfusion h)
  | (k, x) :: xs, (k', y) :: ys =>
    if hk : k = k' then
      match PyVal.decEq x y with
      | .isFalse h => .isFalse (by intro hh; injection hh with hp _; injection hp; contradiction)
      | .isTrue h1 =>
        match PyVal.decEqDict xs ys with
        | .isTrue h2 => .isTrue (by rw [hk, h1, h2])
        | .isFalse h => .isFalse (by intro hh; injection hh; contradiction)
    else .isFalse (by intro hh; injection hh with hp _; injection hp; contradiction)

end

instance : DecidableEq PyVal := PyVal.decEq

deriving instance DecidableEq for Except

/-- Boolean substring test of one character list inside another (the
Python `needle in haystack` test on strings). -/
def strIn (needle : List Char) : List Char → Bool
  | [] => needle.isEmpty
  | c :: rest => needle.isPrefixOf (c :: rest) || strIn needle rest

/-- First-match lookup in an association list, i.e. a Python dict read. -/
def dget : List (String × PyVal) → String → Option PyVal
  | [], _ => Option.none
  | (k', v) :: rest, k => if k' = k then Option.some v else dget rest k

/-- Python truthiness (`bool(v)`), restricted to the value forms of the model. -/
def pyTruthy : PyVal → Bool
  | .none => false
  | .bool b => b
  | .int n => n != 0
  | .str s => s != ""
  | .list l => !l.isEmpty
  | .dict d => !d.isEmpty

/-- `isinstance(v, dict)`. -/
def PyVal.isDict : PyVal → Bool
  | .dict _ => true
  | _ => false

/-- `isinstance(v, list)`. -/
def PyVal.isList : PyVal → Bool
  | .list _ => true
  | _ => false

/-- `isinstance(v, str)`. -/
def PyVal.isStr : PyVal → Bool
  | .str _ => true
  | _ => false

/-- `v.get(k, dflt)` — a dict-method read; raises `AttributeError` on
non-dicts, like Python. -/
def pyGetD (v : PyVal) (k : String) (dflt : PyVal) : Except String PyVal :=
  match v with
  | .dict d => .ok ((dget d k).getD dflt)
  | _ => .error "AttributeError"

/-- `v[k]` with a string key: `KeyError` when the key is absent,
`TypeError` when `v` does not support string subscripts. -/
def pySubscr (v : PyVal) (k : String) : Except String PyVal :=
  match v with
  | .dict d =>
    match dget d k with
    | Option.some x => .ok x
    | Option.none => .error "KeyError"
  | _ => .error "TypeError"

/-- The membership test `s in v` for a string literal `s`: key lookup for
dicts, substring for strings, element search for lists, `TypeError`
otherwise. -/
def pyInOp (s : String) (v : PyVal) : Except String Bool :=
  match v with
  | .dict d => .ok (dget d s).isSome
  | .str t => .ok (strIn s.data t.data)
  | .list l => .ok (l.contains (.str s))
  | _ => .error "TypeError"

/-- Iteration `for x in v`: list elements, string characters, dict keys;
`TypeError` on anything else. -/
def pyIter : PyVal → Except String (List PyVal)
  | .list l => .ok l
  | .str s => .ok (s.data.map fun c => .str (String.mk [c]))
  | .dict d => .ok (d.map fun p => .str p.1)
  | _ => .error "TypeError"

/-- The slice `v[:n]`: defined for lists and strings, `TypeError` otherwise. -/
def pySliceTo (v : PyVal) (n : Nat) : Except String PyVal :=
  match v with
  | .list l => .ok (.list (l.take n))
  | .str s => .ok (.str (String.mk (s.data.take n)))
  | _ => .error "TypeError"

/-! ## FHIR minimizer (`src/utils/fhir_minimizer.py`) -/

/-- `simplify_coding` from `fhir_minimizer.py` lines 136-173.  Collapses a
coding array to its first entry; normalizes a bare coding to the
system/code/display shape; raises `AttributeError` when the first entry of
a coding array is not a dict (Python `primary.get`). -/
def simplify_coding (coding_obj : PyVal) : Except String PyVal :=
  if ¬ pyTruthy coding_obj then .ok coding_obj
  else
    match coding_obj with
    | .dict d =>
      match dget d "coding" with
      | Option.some codings =>
        match codings with
        | .list (primary :: _) => do
          let sys ← pyGetD primary "system" .none
          let code ← pyGetD primary "code" .none
          let disp ← pyGetD primary "display" .none
          .ok (.dict [("coding", .list [.dict [("system", sys), ("code", code), ("display", disp)]]),
                      ("text", (dget d "text").getD .none)])
        | _ => .ok coding_obj
      | Option.none =>
        if (dget d "system").isSome ∨ (dget d "code").isSome then
          .ok (.dict [("system", (dget d "system").getD .none),
                      ("code", (dget d "code").getD .none),
                      ("display", (dget d "display").getD .none)])
        else .ok coding_obj
    | _ => .ok coding_obj

/-- `minimized[k] = resource[k]` done only when `k in resource`
(the verbatim-copy fields of `minimize_resource`). -/
def copySeg (d : List (String × PyVal)) (k : String) : List (String × PyVal) :=
  match dget d k with
  | Option.some v => [(k, v)]
  | Option.none => []

/-- A field copied through `simplify_coding` when present. -/
def codingSeg (d : List (String × PyVal)) (k : String) : Except String (List (String × PyVal)) :=
  match dget d k with
  | Option.some v => do
    let s ← simplify_coding v
    .ok [(k, s)]
  | Option.none => .ok []

/-- A reference field reduced to `(reference, display)` when it is a dict
(`minimize_resource` lines 94-101); silently skipped otherwise. -/
def refSeg (d : List (String × PyVal)) (k : String) : List (String × PyVal) :=
  match dget d k with
  | Option.some ref =>
    match ref with
    | .dict rd => [(k, .dict [("reference", (dget rd "reference").getD .none),
                              ("display", (dget rd "display").getD .none)])]
    | _ => []
  | Option.none => []

/-- `resource[k][:n] if isinstance(resource[k], list) else resource[k]`
(the guarded slices for `dosage` and `name`). -/
def guardedSliceSeg (d : List (String × PyVal)) (k : String) (n : Nat) : List (String × PyVal) :=
  match dget d k with
  | Option.some (.list l) => [(k, .list (l.take n))]
  | Option.some v => [(k, v)]
  | Option.none => []

/-- `resource[k][:n]` without an isinstance guard (the `component` field):
can raise `TypeError`. -/
def sliceSeg (d : List (String × PyVal)) (k : String) (n : Nat) : Except String (List (String × PyVal)) :=
  match dget d k with
  | Option.some v => do
    let s ← pySliceTo v n
    .ok [(k, s)]
  | Option.none => .ok []

/-- The medication-specific fields of `minimize_resource` (lines 103-108),
emitted only when `resource.get("resourceType") == "MedicationStatement"`. -/
def medSeg (d : List (String × PyVal)) (rt : PyVal) : Except String (List (String × PyVal)) :=
  if rt = .str "MedicationStatement" then do
    let a ← codingSeg d "medicationCodeableConcept"
    .ok (a ++ guardedSliceSeg d "dosage" 1)
  else .ok []

/-- The condition-specific fields of `minimize_resource` (lines 110-115). -/
def condSeg (d : List (String × PyVal)) (rt : PyVal) : Except String (List (String × PyVal)) :=
  if rt = .str "Condition" then do
    let a ← codingSeg d "severity"
    let b ← codingSeg d "bodySite"
    .ok (a ++ b)
  else .ok []

/-- The observation-specific fields of `minimize_resource` (lines 117-122);
`component` is sliced without an isinstance guard. -/
def obsSeg (d : List (String × PyVal)) (rt : PyVal) : Except String (List (String × PyVal)) :=
  if rt = .str "Observation" then do
    let a ← codingSeg d "interpretation"
    let b ← sliceSeg d "component" 3
    .ok (a ++ b)
  else .ok []

/-- The patient-specific fields of `minimize_resource` (lines 124-131). -/
def patSeg (d : List (String × PyVal)) (rt : PyVal) : List (String × PyVal) :=
  if rt = .str "Patient" then
    guardedSliceSeg d "name" 1 ++ copySeg d "birthDate" ++ copySeg d "gender"
  else []

/-- The full field list assembled by `minimize_resource` (in the source
order of the Python dict assignments): resourceType, id, status family,
code, value fields, dates, references, then the kind-specific segments.
The four segments computed through `Except` binds are passed in. -/
def mkFields (d : List (String × PyVal)) (rt : PyVal)
    (s2 s3 s4 s7 med cond obs : List (String × PyVal)) : List (String × PyVal) :=
  [("resourceType", rt), ("id", (dget d "id").getD .none)] ++ copySeg d "status" ++
    s2 ++ s3 ++ s4 ++ copySeg d "valueQuantity" ++ copySeg d "valueString" ++ s7 ++
    (copySeg d "effectiveDateTime" ++ copySeg d "onsetDateTime" ++ copySeg d "recordedDate" ++
      copySeg d "date" ++ copySeg d "period") ++
    (refSeg d "subject" ++ refSeg d "patient" ++ refSeg d "encounter" ++ refSeg d "performer" ++
      refSeg d "recorder") ++
    med ++ cond ++ obs ++ patSeg d rt

/-- `minimize_resource` from `fhir_minimizer.py` lines 42-133.  The
Python function assigns fields of the `minimized` dict in source order;
the assignments are modelled as concatenated key segments (`mkFields`),
and the two loops over literal field-name lists are unrolled. -/
def minimize_resource (resource : PyVal) : Except String PyVal :=
  match resource with
  | .dict d =>
    if d = [] then .ok resource
    else do
      let rt := (dget d "resourceType").getD .none
      let s2 ← codingSeg d "clinicalStatus"
      let s3 ← codingSeg d "verificationStatus"
      let s4 ← codingSeg d "code"
      let s7 ← codingSeg d "valueCodeableConcept"
      let med ← medSeg d rt
      let cond ← condSeg d rt
      let obs ← obsSeg d rt
      .ok (.dict (mkFields d rt s2 s3 s4 s7 med cond obs))
  | v => .ok v

/-- The entry loop of `minimize_fhir_bundle` (lines 29-37): entries that
pass `"resource" in entry` are rebuilt as `(fullUrl, resource)` pairs,
others are dropped.  Python raises on entries that pass the membership
test but are not dicts (`entry["resource"]`). -/
def minimize_entries : List PyVal → Except String (List PyVal)
  | [] => .ok []
  | entry :: rest => do
    let hasRes ← pyInOp "resource" entry
    if hasRes then do
      let res ← pySubscr entry "resource"
      let mres ← minimize_resource res
      let fullUrl ← pyGetD entry "fullUrl" .none
      let rest' ← minimize_entries rest
      .ok (.dict [("fullUrl", fullUrl), ("resource", mres)] :: rest')
    else minimize_entries rest

/-- `minimize_fhir_bundle` from `fhir_minimizer.py` lines 8-39.  Python
builds the result dict first and appends entries into it; since the four
keys are fixed, collecting the entries and then building the dict is the
same value, with errors raised in the same order. -/
def minimize_fhir_bundle (fhir_bundle : PyVal) : Except String PyVal :=
  match fhir_bundle with
  | .dict d =>
    if d = [] then .ok fhir_bundle
    else do
      let entries := (dget d "entry").getD (.list [])
      let entryList ← pyIter entries
      let minimizedEntries ← minimize_entries entryList
      .ok (.dict [("resourceType", (dget d "resourceType").getD (.str "Bundle")),
                  ("type", (dget d "type").getD .none),
                  ("total", (dget d "total").getD .none),
                  ("entry", .list minimizedEntries)])
  | v => .ok v

/-! ## Lookup lemmas for the minimizer proofs -/

theorem dget_nil (k : String) : dget [] k = Option.none := rfl

theorem dget_cons (k' : String) (v : PyVal) (t : List (String × PyVal)) (k : String) :
    dget ((k', v) :: t) k = if k' = k then Option.some v else dget t k := rfl

theorem dget_append (l₁ l₂ : List (String × PyVal)) (k : String) :
    dget (l₁ ++ l₂) k = (dget l₁ k).or (dget l₂ k) := by
  induction l₁ with
  | nil => simp [dget]
  | cons p t ih =>
    obtain ⟨k', v⟩ := p
    by_cases h : k' = k <;> simp [dget, h, ih]

theorem dget_copySeg_ne (d : List (String × PyVal)) (k' k : String) (hne : ¬ k' = k) :
    dget (copySeg d k') k = Option.none := by
  unfold copySeg
  cases dget d k' <;> simp [dget, hne]

theorem dget_copySeg_self (d : List (String × PyVal)) (k : String) :
    dget (copySeg d k) k = dget d k := by
  unfold copySeg
  cases h : dget d k <;> simp [dget]

theorem dget_refSeg_ne (d : List (String × PyVal)) (k' k : String) (hne : ¬ k' = k) :
    dget (refSeg d k') k = Option.none := by
  unfold refSeg
  cases h : dget d k' with
  | none => simp [h, dget]
  | some ref => cases ref <;> simp [h, dget, hne]

theorem dget_guardedSliceSeg_ne (d : List (String × PyVal)) (k' k : String) (n : Nat)
    (hne : ¬ k' = k) : dget (guardedSliceSeg d k' n) k = Option.none := by
  unfold guardedSliceSeg
  cases h : dget d k' with
  | none => simp [h, dget]
  | some v => cases v <;> simp [h, dget, hne]

theorem dget_codingSeg_ne {d : List (String × PyVal)} {k' : String}
    {s : List (String × PyVal)} (h : codingSeg d k' = .ok s) (k : String) (hne : ¬ k' = k) :
    dget s k = Option.none := by
  unfold codingSeg at h
  cases hd : dget d k' with
  | none => simp only [hd] at h; cases h; simp [dget]
  | some v =>
    simp only [hd] at h
    cases hs : simplify_coding v with
    | error e => simp only [hs] at h; cases h
    | ok w =>
      simp only [hs] at h
      cases h
      simp [dget, hne]

theorem dget_sliceSeg_ne {d : List (String × PyVal)} {k' : String} {n : Nat}
    {s : List (String × PyVal)} (h : sliceSeg d k' n = .ok s) (k : String) (hne : ¬ k' = k) :
    dget s k = Option.none := by
  unfold sliceSeg at h
  cases hd : dget d k' with
  | none => simp only [hd] at h; cases h; simp [dget]
  | some v =>
    simp only [hd] at h
    cases hs : pySliceTo v n with
    | error e => simp only [hs] at h; cases h
    | ok w =>
      simp only [hs] at h
      cases h
      simp [dget, hne]

theorem dget_medSeg_ne {d : List (String × PyVal)} {rt : PyVal}
    {s : List (String × PyVal)} (h : medSeg d rt = .ok s) (k : String)
    (h1 : ¬ "medicationCodeableConcept" = k) (h2 : ¬ "dosage" = k) :
    dget s k = Option.none := by
  unfold medSeg at h
  by_cases hrt : rt = .str "MedicationStatement"
  · rw [if_pos hrt] at h
    cases ha : codingSeg d "medicationCodeableConcept" with
    | error e => rw [ha] at h; cases h
    | ok a =>
      rw [ha] at h
      cases h
      rw [dget_append, dget_codingSeg_ne ha k h1, dget_guardedSliceSeg_ne d "dosage" k 1 h2]
      rfl
  · rw [if_neg hrt] at h; cases h; simp [dget]

theorem dget_condSeg_ne {d : List (String × PyVal)} {rt : PyVal}
    {s : List (String × PyVal)} (h : condSeg d rt = .ok s) (k : String)
    (h1 : ¬ "severity" = k) (h2 : ¬ "bodySite" = k) :
    dget s k = Option.none := by
  unfold condSeg at h
  by_cases hrt : rt = .str "Condition"
  · rw [if_pos hrt] at h
    cases ha : codingSeg d "severity" with
    | error e => rw [ha] at h; cases h
    | ok a =>
      rw [ha] at h
      cases hb : codingSeg d "bodySite" with
      | error e => rw [hb] at h; cases h
      | ok b =>
        rw [hb] at h
        cases h
        rw [dget_append, dget_codingSeg_ne ha k h1, dget_codingSeg_ne hb k h2]
        rfl
  · rw [if_neg hrt] at h; cases h; simp [dget]

theorem dget_obsSeg_ne {d : List (String × PyVal)} {rt : PyVal}
    {s : List (String × PyVal)} (h : obsSeg d rt = .ok s) (k : String)
    (h1 : ¬ "interpretation" = k) (h2 : ¬ "component" = k) :
    dget s k = Option.none := by
  unfold obsSeg at h
  by_cases hrt : rt = .str "Observation"
  · rw [if_pos hrt] at h
    cases ha : codingSeg d "interpretation" with
    | error e => rw [ha] at h; cases h
    | ok a =>
      rw [ha] at h
      cases hb : sliceSeg d "component" 3 with
      | error e => rw [hb] at h; cases h
      | ok b =>
        rw [hb] at h
        cases h
        rw [dget_append, dget_codingSeg_ne ha k h1, dget_sliceSeg_ne hb k h2]
        rfl
  · rw [if_neg hrt] at h; cases h; simp [dget]

theorem dget_patSeg_ne (d : List (String × PyVal)) (rt : PyVal) (k : String)
    (h1 : ¬ "name" = k) (h2 : ¬ "birthDate" = k) (h3 : ¬ "gender" = k) :
    dget (patSeg d rt) k = Option.none := by
  unfold patSeg
  by_cases hrt : rt = .str "Patient"
  · rw [if_pos hrt]
    rw [dget_append, dget_append, dget_guardedSliceSeg_ne d "name" k 1 h1,
      dget_copySeg_ne d "birthDate" k h2, dget_copySeg_ne d "gender" k h3]
    rfl
  · rw [if_neg hrt]; simp [dget]

theorem ok_bind {α β : Type} (x : α) (f : α → Except String β) :
    (Except.ok x >>= f) = f x := rfl

theorem error_bind {α β : Type} (e : String) (f : α → Except String β) :
    ((Except.error e : Except String α) >>= f) = Except.error e := rfl

/-- `simplify_coding` is idempotent: re-simplifying any successful output
returns it unchanged (the shapes it emits are fixed points). -/
theorem simplify_coding_idem {v w : PyVal} (h : simplify_coding v = .ok w) :
    simplify_coding w = .ok w := by
  by_cases hv : pyTruthy v
  · cases v with
    | dict d =>
      cases hc : dget d "coding" with
      | some codings =>
        cases codings with
        | list l =>
          cases l with
          | nil =>
            simp [simplify_coding, hv, hc] at h
            subst h
            simp [simplify_coding, hv, hc]
          | cons p rest =>
            cases p with
            | dict pd =>
              simp [simplify_coding, hv, hc, pyGetD, ok_bind, error_bind] at h
              subst h
              rfl
            | none => simp [simplify_coding, hv, hc, pyGetD, ok_bind, error_bind] at h
            | bool b => simp [simplify_coding, hv, hc, pyGetD, ok_bind, error_bind] at h
            | int n => simp [simplify_coding, hv, hc, pyGetD, ok_bind, error_bind] at h
            | str s => simp [simplify_coding, hv, hc, pyGetD, ok_bind, error_bind] at h
            | list l2 => simp [simplify_coding, hv, hc, pyGetD, ok_bind, error_bind] at h
        | none =>
          simp [simplify_coding, hv, hc] at h
          subst h
          simp [simplify_coding, hv, hc]
        | bool b =>
          simp [simplify_coding, hv, hc] at h
          subst h
          simp [simplify_coding, hv, hc]
        | int n =>
          simp [simplify_coding, hv, hc] at h
          subst h
          simp [simplify_coding, hv, hc]
        | str s =>
          simp [simplify_coding, hv, hc] at h
          subst h
          simp [simplify_coding, hv, hc]
        | dict d2 =>
          simp [simplify_coding, hv, hc] at h
          subst h
          simp [simplify_coding, hv, hc]
      | none =>
        by_cases hs : ((dget d "system").isSome = true ∨ (dget d "code").isSome = true)
        · simp [simplify_coding, hv, hc, hs] at h
          subst h
          rfl
        · simp [simplify_coding, hv, hc, hs] at h
          subst h
          simp [simplify_coding, hv, hc, hs]
    | none => simp [pyTruthy] at hv
    | bool b =>
      simp [simplify_coding, hv] at h
      subst h
      simp [simplify_coding, hv]
    | int n =>
      simp [simplify_coding, hv] at h
      subst h
      simp [simplify_coding, hv]
    | str s =>
      simp [simplify_coding, hv] at h
      subst h
      simp [simplify_coding, hv]
    | list l =>
      simp [simplify_coding, hv] at h
      subst h
      simp [simplify_coding, hv]
  · unfold simplify_coding at h
    rw [if_pos hv] at h
    cases h
    unfold simplify_coding
    rw [if_pos hv]

/-- `v[:n]` is idempotent on its own outputs. -/
theorem pySliceTo_idem {v w : PyVal} {n : Nat} (h : pySliceTo v n = .ok w) :
    pySliceTo w n = .ok w := by
  cases v with
  | list l =>
    simp [pySliceTo] at h
    subst h
    simp [pySliceTo, List.take_take]
  | str s =>
    simp [pySliceTo] at h
    subst h
    simp [pySliceTo, List.take_take]
  | none => simp [pySliceTo] at h
  | bool b => simp [pySliceTo] at h
  | int n' => simp [pySliceTo] at h
  | dict d => simp [pySliceTo] at h

/-- Recomputing a verbatim-copy segment against any dict that agrees with
the segment at its key yields the same segment. -/
theorem copySeg_frame {L d : List (String × PyVal)} {k : String}
    (h : dget L k = dget (copySeg d k) k) : copySeg L k = copySeg d k := by
  rw [dget_copySeg_self] at h
  unfold copySeg
  rw [h]

/-- Recomputing a reference segment against a dict that agrees with the
segment at its key yields the same segment. -/
theorem refSeg_frame {L d : List (String × PyVal)} {k : String}
    (h : dget L k = dget (refSeg d k) k) : refSeg L k = refSeg d k := by
  cases hd : dget d k with
  | none =>
    have hseg : refSeg d k = [] := by simp [refSeg, hd]
    rw [hseg] at h
    simp only [dget_nil] at h
    rw [hseg]
    simp [refSeg, h]
  | some v =>
    cases v
    case dict rd =>
      have hseg : refSeg d k =
          [(k, .dict [("reference", (dget rd "reference").getD .none),
                      ("display", (dget rd "display").getD .none)])] := by
        simp [refSeg, hd]
      rw [hseg] at h
      simp only [dget_cons, if_pos rfl] at h
      rw [hseg]
      simp [refSeg, h, dget]
    all_goals
      have hseg : refSeg d k = [] := by simp [refSeg, hd]
      rw [hseg] at h
      simp only [dget_nil] at h
      rw [hseg]
      simp [refSeg, h]

/-- Recomputing a guarded-slice segment against a dict that agrees with
the segment at its key yields the same segment. -/
theorem guardedSliceSeg_frame {L d : List (String × PyVal)} {k : String} {n : Nat}
    (h : dget L k = dget (guardedSliceSeg d k n) k) :
    guardedSliceSeg L k n = guardedSliceSeg d k n := by
  cases hd : dget d k with
  | none =>
    have hseg : guardedSliceSeg d k n = [] := by simp [guardedSliceSeg, hd]
    rw [hseg] at h
    simp only [dget_nil] at h
    rw [hseg]
    simp [guardedSliceSeg, h]
  | some v =>
    cases v
    case list l =>
      have hseg : guardedSliceSeg d k n = [(k, .list (l.take n))] := by
        simp [guardedSliceSeg, hd]
      rw [hseg] at h
      simp only [dget_cons, if_pos rfl] at h
      rw [hseg]
      simp [guardedSliceSeg, h, List.take_take]
    all_goals
      have hv : dget L k = dget d k := by
        rw [h, hd]
        simp [guardedSliceSeg, hd, dget]
      simp [guardedSliceSeg, hv, hd]

/-- Recomputing a coding segment against a dict that agrees with the
segment at its key yields the same segment (uses idempotence of
`simplify_coding`). -/
theorem codingSeg_frame {L d : List (String × PyVal)} {k : String}
    {s : List (String × PyVal)} (hc : codingSeg d k = .ok s)
    (h : dget L k = dget s k) : codingSeg L k = .ok s := by
  cases hd : dget d k with
  | none =>
    unfold codingSeg at hc
    simp only [hd] at hc
    cases hc
    simp only [dget_nil] at h
    simp [codingSeg, h]
  | some v =>
    unfold codingSeg at hc
    simp only [hd] at hc
    cases hs : simplify_coding v with
    | error e => simp only [hs] at hc; cases hc
    | ok u =>
      simp only [hs] at hc
      cases hc
      simp [dget] at h
      simp [codingSeg, h, simplify_coding_idem hs, ok_bind]

/-- Recomputing an unguarded-slice segment against a dict that agrees
with the segment at its key yields the same segment. -/
theorem sliceSeg_frame {L d : List (String × PyVal)} {k : String} {n : Nat}
    {s : List (String × PyVal)} (hc : sliceSeg d k n = .ok s)
    (h : dget L k = dget s k) : sliceSeg L k n = .ok s := by
  cases hd : dget d k with
  | none =>
    unfold sliceSeg at hc
    simp only [hd] at hc
    cases hc
    simp only [dget_nil] at h
    simp [sliceSeg, h]
  | some v =>
    unfold sliceSeg at hc
    simp only [hd] at hc
    cases hs : pySliceTo v n with
    | error e => simp only [hs] at hc; cases hc
    | ok u =>
      simp only [hs] at hc
      cases hc
      simp [dget] at h
      simp [sliceSeg, h, pySliceTo_idem hs, ok_bind]

/-- Recomputing the medication segment against a dict that agrees with it
on its two keys reproduces it. -/
theorem medSeg_idem {d L : List (String × PyVal)} {rt : PyVal} {s : List (String × PyVal)}
    (hm : medSeg d rt = .ok s)
    (h1 : dget L "medicationCodeableConcept" = dget s "medicationCodeableConcept")
    (h2 : dget L "dosage" = dget s "dosage") :
    medSeg L rt = .ok s := by
  unfold medSeg at hm ⊢
  by_cases hrt : rt = .str "MedicationStatement"
  · rw [if_pos hrt] at hm ⊢
    cases ha : codingSeg d "medicationCodeableConcept" with
    | error e => simp only [ha] at hm; cases hm
    | ok a =>
      simp only [ha, ok_bind] at hm
      cases hm
      have hga : dget (a ++ guardedSliceSeg d "dosage" 1) "medicationCodeableConcept" =
          dget a "medicationCodeableConcept" := by
        rw [dget_append, dget_guardedSliceSeg_ne d "dosage" "medicationCodeableConcept" 1 (by decide)]
        simp
      have hgd : dget (a ++ guardedSliceSeg d "dosage" 1) "dosage" =
          dget (guardedSliceSeg d "dosage" 1) "dosage" := by
        rw [dget_append, dget_codingSeg_ne ha "dosage" (by decide)]
        simp
      have hca : codingSeg L "medicationCodeableConcept" = .ok a :=
        codingSeg_frame ha (by rw [h1, hga])
      have hgs : guardedSliceSeg L "dosage" 1 = guardedSliceSeg d "dosage" 1 :=
        guardedSliceSeg_frame (by rw [h2, hgd])
      simp [hca, hgs, ok_bind]
  · rw [if_neg hrt] at hm ⊢
    cases hm
    rfl

/-- Recomputing the condition segment against a dict that agrees with it
on its two keys reproduces it. -/
theorem condSeg_idem {d L : List (String × PyVal)} {rt : PyVal} {s : List (String × PyVal)}
    (hm : condSeg d rt = .ok s)
    (h1 : dget L "severity" = dget s "severity")
    (h2 : dget L "bodySite" = dget s "bodySite") :
    condSeg L rt = .ok s := by
  unfold condSeg at hm ⊢
  by_cases hrt : rt = .str "Condition"
  · rw [if_pos hrt] at hm ⊢
    cases ha : codingSeg d "severity" with
    | error e => simp only [ha] at hm; cases hm
    | ok a =>
      simp only [ha, ok_bind] at hm
      cases hb : codingSeg d "bodySite" with
      | error e => simp only [hb] at hm; cases hm
      | ok b =>
        simp only [hb, ok_bind] at hm
        cases hm
        have hga : dget (a ++ b) "severity" = dget a "severity" := by
          rw [dget_append, dget_codingSeg_ne hb "severity" (by decide)]
          simp
        have hgb : dget (a ++ b) "bodySite" = dget b "bodySite" := by
          rw [dget_append, dget_codingSeg_ne ha "bodySite" (by decide)]
          simp
        have hca : codingSeg L "severity" = .ok a := codingSeg_frame ha (by rw [h1, hga])
        have hcb : codingSeg L "bodySite" = .ok b := codingSeg_frame hb (by rw [h2, hgb])
        simp [hca, hcb, ok_bind]
  · rw [if_neg hrt] at hm ⊢
    cases hm
    rfl

/-- Recomputing the observation segment against a dict that agrees with it
on its two keys reproduces it. -/
theorem obsSeg_idem {d L : List (String × PyVal)} {rt : PyVal} {s : List (String × PyVal)}
    (hm : obsSeg d rt = .ok s)
    (h1 : dget L "interpretation" = dget s "interpretation")
    (h2 : dget L "component" = dget s "component") :
    obsSeg L rt = .ok s := by
  unfold obsSeg at hm ⊢
  by_cases hrt : rt = .str "Observation"
  · rw [if_pos hrt] at hm ⊢
    cases ha : codingSeg d "interpretation" with
    | error e => simp only [ha] at hm; cases hm
    | ok a =>
      simp only [ha, ok_bind] at hm
      cases hb : sliceSeg d "component" 3 with
      | error e => simp only [hb] at hm; cases hm
      | ok b =>
        simp only [hb, ok_bind] at hm
        cases hm
        have hga : dget (a ++ b) "interpretation" = dget a "interpretation" := by
          rw [dget_append, dget_sliceSeg_ne hb "interpretation" (by decide)]
          simp
        have hgb : dget (a ++ b) "component" = dget b "component" := by
          rw [dget_append, dget_codingSeg_ne ha "component" (by decide)]
          simp
        have hca : codingSeg L "interpretation" = .ok a := codingSeg_frame ha (by rw [h1, hga])
        have hcb : sliceSeg L "component" 3 = .ok b := sliceSeg_frame hb (by rw [h2, hgb])
        simp [hca, hcb, ok_bind]
  · rw [if_neg hrt] at hm ⊢
    cases hm
    rfl

/-- Recomputing the patient segment against a dict that agrees with it on
its three keys reproduces it. -/
theorem patSeg_idem {d L : List (String × PyVal)} {rt : PyVal}
    (h1 : dget L "name" = dget (patSeg d rt) "name")
    (h2 : dget L "birthDate" = dget (patSeg d rt) "birthDate")
    (h3 : dget L "gender" = dget (patSeg d rt) "gender") :
    patSeg L rt = patSeg d rt := by
  unfold patSeg at h1 h2 h3 ⊢
  by_cases hrt : rt = .str "Patient"
  · simp only [if_pos hrt] at h1 h2 h3 ⊢
    have e1 : dget (guardedSliceSeg d "name" 1 ++ copySeg d "birthDate" ++ copySeg d "gender")
        "name" = dget (guardedSliceSeg d "name" 1) "name" := by
      rw [dget_append, dget_append, dget_copySeg_ne d "birthDate" "name" (by decide),
        dget_copySeg_ne d "gender" "name" (by decide)]
      simp
    have e2 : dget (guardedSliceSeg d "name" 1 ++ copySeg d "birthDate" ++ copySeg d "gender")
        "birthDate" = dget (copySeg d "birthDate") "birthDate" := by
      rw [dget_append, dget_append, dget_guardedSliceSeg_ne d "name" "birthDate" 1 (by decide),
        dget_copySeg_ne d "gender" "birthDate" (by decide)]
      simp
    have e3 : dget (guardedSliceSeg d "name" 1 ++ copySeg d "birthDate" ++ copySeg d "gender")
        "gender" = dget (copySeg d "gender") "gender" := by
      rw [dget_append, dget_append, dget_guardedSliceSeg_ne d "name" "gender" 1 (by decide),
        dget_copySeg_ne d "birthDate" "gender" (by decide)]
      simp
    rw [@guardedSliceSeg_frame L d "name" 1 (by rw [h1, e1]),
      @copySeg_frame L d "birthDate" (by rw [h2, e2]),
      @copySeg_frame L d "gender" (by rw [h3, e3])]
  · simp only [if_neg hrt]

/-- `minimize_resource` is idempotent on its successful outputs: every
field it emits is a fixed point of its own rule. -/
theorem minimize_resource_idem {r m : PyVal} (h : minimize_resource r = .ok m) :
    minimize_resource m = .ok m := by
  cases r with
  | none => simp [minimize_resource] at h; subst h; simp [minimize_resource]
  | bool b => simp [minimize_resource] at h; subst h; simp [minimize_resource]
  | int n => simp [minimize_resource] at h; subst h; simp [minimize_resource]
  | str s => simp [minimize_resource] at h; subst h; simp [minimize_resource]
  | list l => simp [minimize_resource] at h; subst h; simp [minimize_resource]
  | dict d =>
    by_cases hd : d = []
    · subst hd
      simp [minimize_resource] at h
      subst h
      simp [minimize_resource]
    · simp only [minimize_resource] at h
      rw [if_neg hd] at h
      cases hs2 : codingSeg d "clinicalStatus" with
      | error e => simp only [hs2] at h; cases h
      | ok s2 =>
      simp only [hs2, ok_bind] at h
      cases hs3 : codingSeg d "verificationStatus" with
      | error e => simp only [hs3] at h; cases h
      | ok s3 =>
      simp only [hs3, ok_bind] at h
      cases hs4 : codingSeg d "code" with
      | error e => simp only [hs4] at h; cases h
      | ok s4 =>
      simp only [hs4, ok_bind] at h
      cases hs7 : codingSeg d "valueCodeableConcept" with
      | error e => simp only [hs7] at h; cases h
      | ok s7 =>
      simp only [hs7, ok_bind] at h
      cases hmed : medSeg d ((dget d "resourceType").getD PyVal.none) with
      | error e => simp only [hmed] at h; cases h
      | ok med =>
      simp only [hmed, ok_bind] at h
      cases hcond : condSeg d ((dget d "resourceType").getD PyVal.none) with
      | error e => simp only [hcond] at h; cases h
      | ok cond =>
      simp only [hcond, ok_bind] at h
      cases hobs : obsSeg d ((dget d "resourceType").getD PyVal.none) with
      | error e => simp only [hobs] at h; cases h
      | ok obs =>
      simp only [hobs, ok_bind] at h
      generalize hg : (dget d "resourceType").getD PyVal.none = rt at h hmed hcond hobs
      cases h
      set M := mkFields d rt s2 s3 s4 s7 med cond obs with hM
      have f_rt : dget M "resourceType" = Option.some rt := by
        simp [hM, mkFields, dget_append, dget_cons, dget_nil, dget_copySeg_ne, dget_refSeg_ne,
          dget_guardedSliceSeg_ne, dget_codingSeg_ne hs2, dget_codingSeg_ne hs3,
          dget_codingSeg_ne hs4, dget_codingSeg_ne hs7, dget_medSeg_ne hmed,
          dget_condSeg_ne hcond, dget_obsSeg_ne hobs, dget_patSeg_ne]
      have f_id : dget M "id" = Option.some ((dget d "id").getD PyVal.none) := by
        simp [hM, mkFields, dget_append, dget_cons, dget_nil, dget_copySeg_ne, dget_refSeg_ne,
          dget_guardedSliceSeg_ne, dget_codingSeg_ne hs2, dget_codingSeg_ne hs3,
          dget_codingSeg_ne hs4, dget_codingSeg_ne hs7, dget_medSeg_ne hmed,
          dget_condSeg_ne hcond, dget_obsSeg_ne hobs, dget_patSeg_ne]
      have f_st : dget M "status" = dget (copySeg d "status") "status" := by
        simp [hM, mkFields, dget_append, dget_cons, dget_nil, dget_copySeg_ne, dget_refSeg_ne,
          dget_guardedSliceSeg_ne, dget_codingSeg_ne hs2, dget_codingSeg_ne hs3,
          dget_codingSeg_ne hs4, dget_codingSeg_ne hs7, dget_medSeg_ne hmed,
          dget_condSeg_ne hcond, dget_obsSeg_ne hobs, dget_patSeg_ne]
      have f_cl : dget M "clinicalStatus" = dget s2 "clinicalStatus" := by
        simp [hM, mkFields, dget_append, dget_cons, dget_nil, dget_copySeg_ne, dget_refSeg_ne,
          dget_guardedSliceSeg_ne, dget_codingSeg_ne hs2, dget_codingSeg_ne hs3,
          dget_codingSeg_ne hs4, dget_codingSeg_ne hs7, dget_medSeg_ne hmed,
          dget_condSeg_ne hcond, dget_obsSeg_ne hobs, dget_patSeg_ne]
      have f_vf : dget M "verificationStatus" = dget s3 "verificationStatus" := by
        simp [hM, mkFields, dget_append, dget_cons, dget_nil, dget_copySeg_ne, dget_refSeg_ne,
          dget_guardedSliceSeg_ne, dget_codingSeg_ne hs2, dget_codingSeg_ne hs3,
          dget_codingSeg_ne hs4, dget_codingSeg_ne hs7, dget_medSeg_ne hmed,
          dget_condSeg_ne hcond, dget_obsSeg_ne hobs, dget_patSeg_ne]
      have f_cd : dget M "code" = dget s4 "code" := by
        simp [hM, mkFields, dget_append, dget_cons, dget_nil, dget_copySeg_ne, dget_refSeg_ne,
          dget_guardedSliceSeg_ne, dget_codingSeg_ne hs2, dget_codingSeg_ne hs3,
          dget_codingSeg_ne hs4, dget_codingSeg_ne hs7, dget_medSeg_ne hmed,
          dget_condSeg_ne hcond, dget_obsSeg_ne hobs, dget_patSeg_ne]
      have f_vq : dget M "valueQuantity" = dget (copySeg d "valueQuantity") "valueQuantity" := by
        simp [hM, mkFields, dget_append, dget_cons, dget_nil, dget_copySeg_ne, dget_refSeg_ne,
          dget_guardedSliceSeg_ne, dget_codingSeg_ne hs2, dget_codingSeg_ne hs3,
          dget_codingSeg_ne hs4, dget_codingSeg_ne hs7, dget_medSeg_ne hmed,
          dget_condSeg_ne hcond, dget_obsSeg_ne hobs, dget_patSeg_ne]
      have f_vs : dget M "valueString" = dget (copySeg d "valueString") "valueString" := by
        simp [hM, mkFields, dget_append, dget_cons, dget_nil, dget_copySeg_ne, dget_refSeg_ne,
          dget_guardedSliceSeg_ne, dget_codingSeg_ne hs2, dget_codingSeg_ne hs3,
          dget_codingSeg_ne hs4, dget_codingSeg_ne hs7, dget_medSeg_ne hmed,
          dget_condSeg_ne hcond, dget_obsSeg_ne hobs, dget_patSeg_ne]
      have f_vcc : dget M "valueCodeableConcept" = dget s7 "valueCodeableConcept" := by
        simp [hM, mkFields, dget_append, dget_cons, dget_nil, dget_copySeg_ne, dget_refSeg_ne,
          dget_guardedSliceSeg_ne, dget_codingSeg_ne hs2, dget_codingSeg_ne hs3,
          dget_codingSeg_ne hs4, dget_codingSeg_ne hs7, dget_medSeg_ne hmed,
          dget_condSeg_ne hcond, dget_obsSeg_ne hobs, dget_patSeg_ne]
      have f_d1 : dget M "effectiveDateTime" = dget (copySeg d "effectiveDateTime") "effectiveDateTime" := by
        simp [hM, mkFields, dget_append, dget_cons, dget_nil, dget_copySeg_ne, dget_refSeg_ne,
          dget_guardedSliceSeg_ne, dget_codingSeg_ne hs2, dget_codingSeg_ne hs3,
          dget_codingSeg_ne hs4, dget_codingSeg_ne hs7, dget_medSeg_ne hmed,
          dget_condSeg_ne hcond, dget_obsSeg_ne hobs, dget_patSeg_ne]
      have f_d2 : dget M "onsetDateTime" = dget (copySeg d "onsetDateTime") "onsetDateTime" := by
        simp [hM, mkFields, dget_append, dget_cons, dget_nil, dget_copySeg_ne, dget_refSeg_ne,
          dget_guardedSliceSeg_ne, dget_codingSeg_ne hs2, dget_codingSeg_ne hs3,
          dget_codingSeg_ne hs4, dget_codingSeg_ne hs7, dget_medSeg_ne hmed,
          dget_condSeg_ne hcond, dget_obsSeg_ne hobs, dget_patSeg_ne]
      have f_d3 : dget M "recordedDate" = dget (copySeg d "recordedDate") "recordedDate" := by
        simp [hM, mkFields, dget_append, dget_cons, dget_nil, dget_copySeg_ne, dget_refSeg_ne,
          dget_guardedSliceSeg_ne, dget_codingSeg_ne hs2, dget_codingSeg_ne hs3,
          dget_codingSeg_ne hs4, dget_codingSeg_ne hs7, dget_medSeg_ne hmed,
          dget_condSeg_ne hcond, dget_obsSeg_ne hobs, dget_patSeg_ne]
      have f_d4 : dget M "date" = dget (copySeg d "date") "date" := by
        simp [hM, mkFields, dget_append, dget_cons, dget_nil, dget_copySeg_ne, dget_refSeg_ne,
          dget_guardedSliceSeg_ne, dget_codingSeg_ne hs2, dget_codingSeg_ne hs3,
          dget_codingSeg_ne hs4, dget_codingSeg_ne hs7, dget_medSeg_ne hmed,
          dget_condSeg_ne hcond, dget_obsSeg_ne hobs, dget_patSeg_ne]
      have f_d5 : dget M "period" = dget (copySeg d "period") "period" := by
        simp [hM, mkFields, dget_append, dget_cons, dget_nil, dget_copySeg_ne, dget_refSeg_ne,
          dget_guardedSliceSeg_ne, dget_codingSeg_ne hs2, dget_codingSeg_ne hs3,
          dget_codingSeg_ne hs4, dget_codingSeg_ne hs7, dget_medSeg_ne hmed,
          dget_condSeg_ne hcond, dget_obsSeg_ne hobs, dget_patSeg_ne]
      have f_r1 : dget M "subject" = dget (refSeg d "subject") "subject" := by
        simp [hM, mkFields, dget_append, dget_cons, dget_nil, dget_copySeg_ne, dget_refSeg_ne,
          dget_guardedSliceSeg_ne, dget_codingSeg_ne hs2, dget_codingSeg_ne hs3,
          dget_codingSeg_ne hs4, dget_codingSeg_ne hs7, dget_medSeg_ne hmed,
          dget_condSeg_ne hcond, dget_obsSeg_ne hobs, dget_patSeg_ne]
      have f_r2 : dget M "patient" = dget (refSeg d "patient") "patient" := by
        simp [hM, mkFields, dget_append, dget_cons, dget_nil, dget_copySeg_ne, dget_refSeg_ne,
          dget_guardedSliceSeg_ne, dget_codingSeg_ne hs2, dget_codingSeg_ne hs3,
          dget_codingSeg_ne hs4, dget_codingSeg_ne hs7, dget_medSeg_ne hmed,
          dget_condSeg_ne hcond, dget_obsSeg_ne hobs, dget_patSeg_ne]
      have f_r3 : dget M "encounter" = dget (refSeg d "encounter") "encounter" := by
        simp [hM, mkFields, dget_append, dget_cons, dget_nil, dget_copySeg_ne, dget_refSeg_ne,
          dget_guardedSliceSeg_ne, dget_codingSeg_ne hs2, dget_codingSeg_ne hs3,
          dget_codingSeg_ne hs4, dget_codingSeg_ne hs7, dget_medSeg_ne hmed,
          dget_condSeg_ne hcond, dget_obsSeg_ne hobs, dget_patSeg_ne]
      have f_r4 : dget M "performer" = dget (refSeg d "performer") "performer" := by
        simp [hM, mkFields, dget_append, dget_cons, dget_nil, dget_copySeg_ne, dget_refSeg_ne,
          dget_guardedSliceSeg_ne, dget_codingSeg_ne hs2, dget_codingSeg_ne hs3,
          dget_codingSeg_ne hs4, dget_codingSeg_ne hs7, dget_medSeg_ne hmed,
          dget_condSeg_ne hcond, dget_obsSeg_ne hobs, dget_patSeg_ne]
      have f_r5 : dget M "recorder" = dget (refSeg d "recorder") "recorder" := by
        simp [hM, mkFields, dget_append, dget_cons, dget_nil, dget_copySeg_ne, dget_refSeg_ne,
          dget_guardedSliceSeg_ne, dget_codingSeg_ne hs2, dget_codingSeg_ne hs3,
          dget_codingSeg_ne hs4, dget_codingSeg_ne hs7, dget_medSeg_ne hmed,
          dget_condSeg_ne hcond, dget_obsSeg_ne hobs, dget_patSeg_ne]
      have f_mcc : dget M "medicationCodeableConcept" = dget med "medicationCodeableConcept" := by
        simp [hM, mkFields, dget_append, dget_cons, dget_nil, dget_copySeg_ne, dget_refSeg_ne,
          dget_guardedSliceSeg_ne, dget_codingSeg_ne hs2, dget_codingSeg_ne hs3,
          dget_codingSeg_ne hs4, dget_codingSeg_ne hs7, dget_medSeg_ne hmed,
          dget_condSeg_ne hcond, dget_obsSeg_ne hobs, dget_patSeg_ne]
      have f_dos : dget M "dosage" = dget med "dosage" := by
        simp [hM, mkFields, dget_append, dget_cons, dget_nil, dget_copySeg_ne, dget_refSeg_ne,
          dget_guardedSliceSeg_ne, dget_codingSeg_ne hs2, dget_codingSeg_ne hs3,
          dget_codingSeg_ne hs4, dget_codingSeg_ne hs7, dget_medSeg_ne hmed,
          dget_condSeg_ne hcond, dget_obsSeg_ne hobs, dget_patSeg_ne]
      have f_sev : dget M "severity" = dget cond "severity" := by
        simp [hM, mkFields, dget_append, dget_cons, dget_nil, dget_copySeg_ne, dget_refSeg_ne,
          dget_guardedSliceSeg_ne, dget_codingSeg_ne hs2, dget_codingSeg_ne hs3,
          dget_codingSeg_ne hs4, dget_codingSeg_ne hs7, dget_medSeg_ne hmed,
          dget_condSeg_ne hcond, dget_obsSeg_ne hobs, dget_patSeg_ne]
      have f_bs : dget M "bodySite" = dget cond "bodySite" := by
        simp [hM, mkFields, dget_append, dget_cons, dget_nil, dget_copySeg_ne, dget_refSeg_ne,
          dget_guardedSliceSeg_ne, dget_codingSeg_ne hs2, dget_codingSeg_ne hs3,
          dget_codingSeg_ne hs4, dget_codingSeg_ne hs7, dget_medSeg_ne hmed,
          dget_condSeg_ne hcond, dget_obsSeg_ne hobs, dget_patSeg_ne]
      have f_int : dget M "interpretation" = dget obs "interpretation" := by
        simp [hM, mkFields, dget_append, dget_cons, dget_nil, dget_copySeg_ne, dget_refSeg_ne,
          dget_guardedSliceSeg_ne, dget_codingSeg_ne hs2, dget_codingSeg_ne hs3,
          dget_codingSeg_ne hs4, dget_codingSeg_ne hs7, dget_medSeg_ne hmed,
          dget_condSeg_ne hcond, dget_obsSeg_ne hobs, dget_patSeg_ne]
      have f_cmp : dget M "component" = dget obs "component" := by
        simp [hM, mkFields, dget_append, dget_cons, dget_nil, dget_copySeg_ne, dget_refSeg_ne,
          dget_guardedSliceSeg_ne, dget_codingSeg_ne hs2, dget_codingSeg_ne hs3,
          dget_codingSeg_ne hs4, dget_codingSeg_ne hs7, dget_medSeg_ne hmed,
          dget_condSeg_ne hcond, dget_obsSeg_ne hobs, dget_patSeg_ne]
      have f_nm : dget M "name" = dget (patSeg d rt) "name" := by
        simp [hM, mkFields, dget_append, dget_cons, dget_nil, dget_copySeg_ne, dget_refSeg_ne,
          dget_guardedSliceSeg_ne, dget_codingSeg_ne hs2, dget_codingSeg_ne hs3,
          dget_codingSeg_ne hs4, dget_codingSeg_ne hs7, dget_medSeg_ne hmed,
          dget_condSeg_ne hcond, dget_obsSeg_ne hobs, dget_patSeg_ne]
      have f_bd : dget M "birthDate" = dget (patSeg d rt) "birthDate" := by
        simp [hM, mkFields, dget_append, dget_cons, dget_nil, dget_copySeg_ne, dget_refSeg_ne,
          dget_guardedSliceSeg_ne, dget_codingSeg_ne hs2, dget_codingSeg_ne hs3,
          dget_codingSeg_ne hs4, dget_codingSeg_ne hs7, dget_medSeg_ne hmed,
          dget_condSeg_ne hcond, dget_obsSeg_ne hobs, dget_patSeg_ne]
      have f_gn : dget M "gender" = dget (patSeg d rt) "gender" := by
        simp [hM, mkFields, dget_append, dget_cons, dget_nil, dget_copySeg_ne, dget_refSeg_ne,
          dget_guardedSliceSeg_ne, dget_codingSeg_ne hs2, dget_codingSeg_ne hs3,
          dget_codingSeg_ne hs4, dget_codingSeg_ne hs7, dget_medSeg_ne hmed,
          dget_condSeg_ne hcond, dget_obsSeg_ne hobs, dget_patSeg_ne]
      have rc_st : copySeg M "status" = copySeg d "status" := copySeg_frame f_st
      have rc_cl : codingSeg M "clinicalStatus" = .ok s2 := codingSeg_frame hs2 f_cl
      have rc_vf : codingSeg M "verificationStatus" = .ok s3 := codingSeg_frame hs3 f_vf
      have rc_cd : codingSeg M "code" = .ok s4 := codingSeg_frame hs4 f_cd
      have rc_vq : copySeg M "valueQuantity" = copySeg d "valueQuantity" := copySeg_frame f_vq
      have rc_vs : copySeg M "valueString" = copySeg d "valueString" := copySeg_frame f_vs
      have rc_vcc : codingSeg M "valueCodeableConcept" = .ok s7 := codingSeg_frame hs7 f_vcc
      have rc_d1 : copySeg M "effectiveDateTime" = copySeg d "effectiveDateTime" := copySeg_frame f_d1
      have rc_d2 : copySeg M "onsetDateTime" = copySeg d "onsetDateTime" := copySeg_frame f_d2
      have rc_d3 : copySeg M "recordedDate" = copySeg d "recordedDate" := copySeg_frame f_d3
      have rc_d4 : copySeg M "date" = copySeg d "date" := copySeg_frame f_d4
      have rc_d5 : copySeg M "period" = copySeg d "period" := copySeg_frame f_d5
      have rc_r1 : refSeg M "subject" = refSeg d "subject" := refSeg_frame f_r1
      have rc_r2 : refSeg M "patient" = refSeg d "patient" := refSeg_frame f_r2
      have rc_r3 : refSeg M "encounter" = refSeg d "encounter" := refSeg_frame f_r3
      have rc_r4 : refSeg M "performer" = refSeg d "performer" := refSeg_frame f_r4
      have rc_r5 : refSeg M "recorder" = refSeg d "recorder" := refSeg_frame f_r5
      have rc_med : medSeg M rt = .ok med := medSeg_idem hmed f_mcc f_dos
      have rc_cond : condSeg M rt = .ok cond := condSeg_idem hcond f_sev f_bs
      have rc_obs : obsSeg M rt = .ok obs := obsSeg_idem hobs f_int f_cmp
      have rc_pat : patSeg M rt = patSeg d rt := patSeg_idem f_nm f_bd f_gn
      have hMne : ¬ (M = []) := by simp [hM, mkFields]
      simp only [minimize_resource]
      rw [if_neg hMne]
      simp only [f_rt, Option.getD_some, rc_cl, rc_vf, rc_cd, rc_vcc, rc_med, rc_cond,
        rc_obs, ok_bind]
      simp only [mkFields, f_id, Option.getD_some, rc_st, rc_vq, rc_vs, rc_d1, rc_d2,
        rc_d3, rc_d4, rc_d5, rc_r1, rc_r2, rc_r3, rc_r4, rc_r5, rc_pat]
      rw [hM]
      rfl

/-- The entry loop of the bundle minimizer is idempotent on its outputs. -/
theorem minimize_entries_idem : ∀ {es es' : List PyVal}, minimize_entries es = .ok es' →
    minimize_entries es' = .ok es' := by
  intro es
  induction es with
  | nil =>
    intro es' h
    simp [minimize_entries] at h
    subst h
    simp [minimize_entries]
  | cons entry rest ih =>
    intro es' h
    simp only [minimize_entries] at h
    cases hin : pyInOp "resource" entry with
    | error e => simp only [hin] at h; cases h
    | ok hasRes =>
    simp only [hin, ok_bind] at h
    cases hasRes with
    | false =>
      rw [if_neg (by simp)] at h
      exact ih h
    | true =>
      rw [if_pos rfl] at h
      cases hsub : pySubscr entry "resource" with
      | error e => simp only [hsub] at h; cases h
      | ok res =>
      simp only [hsub, ok_bind] at h
      cases hmres : minimize_resource res with
      | error e => simp only [hmres] at h; cases h
      | ok mres =>
      simp only [hmres, ok_bind] at h
      cases hfu : pyGetD entry "fullUrl" .none with
      | error e => simp only [hfu] at h; cases h
      | ok fu =>
      simp only [hfu, ok_bind] at h
      cases hrest : minimize_entries rest with
      | error e => simp only [hrest] at h; cases h
      | ok rest' =>
      simp only [hrest, ok_bind] at h
      cases h
      have h1 : pyInOp "resource" (.dict [("fullUrl", fu), ("resource", mres)]) = .ok true := by
        simp [pyInOp, dget]
      have h2 : pySubscr (.dict [("fullUrl", fu), ("resource", mres)]) "resource" = .ok mres := by
        simp [pySubscr, dget]
      have h4 : pyGetD (.dict [("fullUrl", fu), ("resource", mres)]) "fullUrl" .none = .ok fu := by
        simp [pyGetD, dget]
      simp only [minimize_entries, h1, h2, h4, minimize_resource_idem hmres, ih hrest,
        ok_bind, if_pos rfl]
      simp

/-- Claim C3 core: `minimize_fhir_bundle` is idempotent on its successful
outputs. -/
theorem minimize_fhir_bundle_idem_aux {b m : PyVal} (h : minimize_fhir_bundle b = .ok m) :
    minimize_fhir_bundle m = .ok m := by
  cases b with
  | none => simp [minimize_fhir_bundle] at h; subst h; simp [minimize_fhir_bundle]
  | bool x => simp [minimize_fhir_bundle] at h; subst h; simp [minimize_fhir_bundle]
  | int n => simp [minimize_fhir_bundle] at h; subst h; simp [minimize_fhir_bundle]
  | str s => simp [minimize_fhir_bundle] at h; subst h; simp [minimize_fhir_bundle]
  | list l => simp [minimize_fhir_bundle] at h; subst h; simp [minimize_fhir_bundle]
  | dict d =>
    by_cases hd : d = []
    · subst hd
      simp [minimize_fhir_bundle] at h
      subst h
      simp [minimize_fhir_bundle]
    · simp only [minimize_fhir_bundle] at h
      rw [if_neg hd] at h
      cases hit : pyIter ((dget d "entry").getD (.list [])) with
      | error e => simp only [hit] at h; cases h
      | ok entryList =>
      simp only [hit, ok_bind] at h
      cases hme : minimize_entries entryList with
      | error e => simp only [hme] at h; cases h
      | ok mes =>
      simp only [hme, ok_bind] at h
      cases h
      simp only [minimize_fhir_bundle]
      rw [if_neg (by simp)]
      have h1 : dget [("resourceType", (dget d "resourceType").getD (.str "Bundle")),
          ("type", (dget d "type").getD .none), ("total", (dget d "total").getD .none),
          ("entry", PyVal.list mes)] "entry" = Option.some (.list mes) := by
        simp [dget]
      rw [h1]
      simp only [Option.getD_some, pyIter, ok_bind, minimize_entries_idem hme]
      simp [dget]

/-- The record read `resource.get(k)` used to state preservation facts:
the stored value, `None` when the key is absent or the record is not a
dict. -/
def pvGet (v : PyVal) (k : String) : PyVal :=
  match v with
  | .dict d => (dget d k).getD .none
  | _ => .none

theorem dget_mkFields_resourceType (d : List (String × PyVal)) (rt : PyVal)
    (s2 s3 s4 s7 med cond obs : List (String × PyVal)) :
    dget (mkFields d rt s2 s3 s4 s7 med cond obs) "resourceType" = Option.some rt := by
  simp [mkFields, dget_append, dget]

theorem dget_mkFields_id (d : List (String × PyVal)) (rt : PyVal)
    (s2 s3 s4 s7 med cond obs : List (String × PyVal)) :
    dget (mkFields d rt s2 s3 s4 s7 med cond obs) "id" =
      Option.some ((dget d "id").getD .none) := by
  simp [mkFields, dget_append, dget]

/-- The successful output of `minimize_resource` on a non-empty dict is a
`mkFields` record. -/
theorem minimize_resource_dict_shape {d : List (String × PyVal)} {m : PyVal}
    (hd : ¬ d = []) (h : minimize_resource (.dict d) = .ok m) :
    ∃ s2 s3 s4 s7 med cond obs,
      m = .dict (mkFields d ((dget d "resourceType").getD .none) s2 s3 s4 s7 med cond obs) := by
  simp only [minimize_resource] at h
  rw [if_neg hd] at h
  cases hs2 : codingSeg d "clinicalStatus" with
  | error e => simp only [hs2] at h; cases h
  | ok s2 =>
  simp only [hs2, ok_bind] at h
  cases hs3 : codingSeg d "verificationStatus" with
  | error e => simp only [hs3] at h; cases h
  | ok s3 =>
  simp only [hs3, ok_bind] at h
  cases hs4 : codingSeg d "code" with
  | error e => simp only [hs4] at h; cases h
  | ok s4 =>
  simp only [hs4, ok_bind] at h
  cases hs7 : codingSeg d "valueCodeableConcept" with
  | error e => simp only [hs7] at h; cases h
  | ok s7 =>
  simp only [hs7, ok_bind] at h
  cases hmed : medSeg d ((dget d "resourceType").getD PyVal.none) with
  | error e => simp only [hmed] at h; cases h
  | ok med =>
  simp only [hmed, ok_bind] at h
  cases hcond : condSeg d ((dget d "resourceType").getD PyVal.none) with
  | error e => simp only [hcond] at h; cases h
  | ok cond =>
  simp only [hcond, ok_bind] at h
  cases hobs : obsSeg d ((dget d "resourceType").getD PyVal.none) with
  | error e => simp only [hobs] at h; cases h
  | ok obs =>
  simp only [hobs, ok_bind] at h
  cases h
  exact ⟨s2, s3, s4, s7, med, cond, obs, rfl⟩

/-- C3: for every FHIR bundle value that minimization accepts,
re-minimizing the minimized document returns it unchanged:
`minimize_fhir_bundle (minimize_fhir_bundle b) = minimize_fhir_bundle b`
read on successful results. -/
theorem minimize_fhir_bundle_idempotent {b m : PyVal}
    (h : minimize_fhir_bundle b = .ok m) : minimize_fhir_bundle m = .ok m :=
  minimize_fhir_bundle_idem_aux h

/-- A concrete two-coding Condition bundle used as the C3 witness input. -/
def exC3Bundle : PyVal :=
  .dict [("resourceType", .str "Bundle"), ("type", .str "searchset"),
    ("entry", .list [.dict [("fullUrl", .str "urn:1"), ("resource",
      .dict [("resourceType", .str "Condition"), ("id", .str "c1"),
        ("code", .dict [("coding", .list [.dict [("system", .str "s"), ("code", .str "x")],
          .dict [("system", .str "s2"), ("code", .str "y")]]), ("text", .str "t")])])]])]

/-- The minimized form of `exC3Bundle`. -/
def exC3Min : PyVal :=
  .dict [("resourceType", .str "Bundle"), ("type", .str "searchset"), ("total", .none),
    ("entry", .list [.dict [("fullUrl", .str "urn:1"), ("resource",
      .dict [("resourceType", .str "Condition"), ("id", .str "c1"),
        ("code", .dict [("coding", .list [.dict [("system", .str "s"), ("code", .str "x"),
          ("display", .none)]]), ("text", .str "t")])])]])]

/-- Witness for C3 at a concrete two-coding Condition bundle. -/
theorem minimize_fhir_bundle_idempotent_witness :
    minimize_fhir_bundle exC3Bundle = .ok exC3Min ∧
    minimize_fhir_bundle exC3Min = .ok exC3Min :=
  ⟨by decide, @minimize_fhir_bundle_idempotent exC3Bundle exC3Min (by decide)⟩

/-- C5: minimization preserves each record's `resourceType` and `id`
(read as Python `resource.get`, i.e. `None` when absent), for every
record kind — allow-listed or not — and never produces a record kind that
was not present in the source record. -/
theorem minimize_resource_preserves_identity {r m : PyVal}
    (h : minimize_resource r = .ok m) :
    pvGet m "resourceType" = pvGet r "resourceType" ∧ pvGet m "id" = pvGet r "id" ∧
    ∀ s, pvGet m "resourceType" = .str s → pvGet r "resourceType" = .str s := by
  cases r with
  | dict d =>
    by_cases hd : d = []
    · subst hd
      simp [minimize_resource] at h
      subst h
      exact ⟨rfl, rfl, fun s hs => hs⟩
    · obtain ⟨s2, s3, s4, s7, med, cond, obs, hm⟩ := minimize_resource_dict_shape hd h
      subst hm
      have h1 : pvGet (.dict (mkFields d ((dget d "resourceType").getD .none)
          s2 s3 s4 s7 med cond obs)) "resourceType" = pvGet (.dict d) "resourceType" := by
        simp [pvGet, dget_mkFields_resourceType]
      have h2 : pvGet (.dict (mkFields d ((dget d "resourceType").getD .none)
          s2 s3 s4 s7 med cond obs)) "id" = pvGet (.dict d) "id" := by
        simp [pvGet, dget_mkFields_id]
      exact ⟨h1, h2, fun s hs => by rw [← h1]; exact hs⟩
  | none => simp [minimize_resource] at h; subst h; exact ⟨rfl, rfl, fun s hs => hs⟩
  | bool x => simp [minimize_resource] at h; subst h; exact ⟨rfl, rfl, fun s hs => hs⟩
  | int n => simp [minimize_resource] at h; subst h; exact ⟨rfl, rfl, fun s hs => hs⟩
  | str s => simp [minimize_resource] at h; subst h; exact ⟨rfl, rfl, fun s hs => hs⟩
  | list l => simp [minimize_resource] at h; subst h; exact ⟨rfl, rfl, fun s hs => hs⟩

/-- Witness for C5 at a record of a kind with no allow-list handling
(`Procedure`). -/
theorem minimize_resource_preserves_identity_witness :
    minimize_resource (.dict [("resourceType", .str "Procedure"), ("id", .str "p1"),
      ("extension", .list [.str "x"]), ("status", .str "completed")]) =
      .ok (.dict [("resourceType", .str "Procedure"), ("id", .str "p1"),
        ("status", .str "completed")]) ∧
    pvGet (.dict [("resourceType", .str "Procedure"), ("id", .str "p1"),
        ("status", .str "completed")]) "resourceType" =
      pvGet (.dict [("resourceType", .str "Procedure"), ("id", .str "p1"),
        ("extension", .list [.str "x"]), ("status", .str "completed")]) "resourceType" ∧
    pvGet (.dict [("resourceType", .str "Procedure"), ("id", .str "p1"),
        ("status", .str "completed")]) "id" =
      pvGet (.dict [("resourceType", .str "Procedure"), ("id", .str "p1"),
        ("extension", .list [.str "x"]), ("status", .str "completed")]) "id" := by
  refine ⟨by decide, ?_, ?_⟩
  · exact (minimize_resource_preserves_identity (by decide)).1
  · exact (minimize_resource_preserves_identity (by decide)).2.1

/-- C7: a coded concept whose coding array has at least two entries (the
first being a coding dict) simplifies to exactly one retained coding
entry whose system, code and display are the first original entry's
`.get` values, with the concept's free-text label retained. -/
theorem simplify_coding_keeps_first_coding {d pd : List (String × PyVal)}
    {c2 : PyVal} {tail : List PyVal}
    (h : dget d "coding" = Option.some (.list (.dict pd :: c2 :: tail))) :
    simplify_coding (.dict d) =
      .ok (.dict [("coding", .list [.dict [("system", (dget pd "system").getD .none),
        ("code", (dget pd "code").getD .none),
        ("display", (dget pd "display").getD .none)]]),
        ("text", (dget d "text").getD .none)]) := by
  have hd : ¬ d = [] := by
    intro hcon
    subst hcon
    simp [dget] at h
  have ht : pyTruthy (.dict d) = true := by
    simp [pyTruthy]
    exact hd
  simp [simplify_coding, ht, h, pyGetD, ok_bind]

/-- Witness for C7 at a concrete two-coding concept. -/
theorem simplify_coding_keeps_first_coding_witness :
    simplify_coding (.dict [("coding", .list [
        .dict [("system", .str "http://loinc.org"), ("code", .str "718-7"),
          ("display", .str "Hemoglobin")],
        .dict [("system", .str "http://snomed.info"), ("code", .str "38082009")]]),
      ("text", .str "Hgb")]) =
      .ok (.dict [("coding", .list [.dict [("system", .str "http://loinc.org"),
        ("code", .str "718-7"), ("display", .str "Hemoglobin")]]),
        ("text", .str "Hgb")]) := by
  have := @simplify_coding_keeps_first_coding
    [("coding", .list [
        .dict [("system", .str "http://loinc.org"), ("code", .str "718-7"),
          ("display", .str "Hemoglobin")],
        .dict [("system", .str "http://snomed.info"), ("code", .str "38082009")]]),
      ("text", .str "Hgb")]
    [("system", .str "http://loinc.org"), ("code", .str "718-7"),
      ("display", .str "Hemoglobin")]
    (.dict [("system", .str "http://snomed.info"), ("code", .str "38082009")]) [] (by decide)
  rw [this]
  decide

/-! ## Shape conditions under which the minimizer cannot raise -/

/-- A value is coding-safe when `simplify_coding` cannot raise on it: if
it is a dict whose `coding` key holds a non-empty list, the first element
is a dict. -/
def codingSafe (v : PyVal) : Bool :=
  match v with
  | .dict d =>
    match dget d "coding" with
    | Option.some (.list (p :: _)) => p.isDict
    | _ => true
  | _ => true

/-- The field at `k`, when present, is coding-safe. -/
def codingFieldSafe (d : List (String × PyVal)) (k : String) : Bool :=
  match dget d k with
  | Option.some v => codingSafe v
  | Option.none => true

/-- The `component` field, when present, supports the `[:3]` slice. -/
def componentSafe (d : List (String × PyVal)) : Bool :=
  match dget d "component" with
  | Option.some v => v.isList || v.isStr
  | Option.none => true

/-- A record on which `minimize_resource` cannot raise: every
coding-bearing field that its rules touch is coding-safe and an
Observation's `component` is sliceable. -/
def resourceSafe (r : PyVal) : Bool :=
  match r with
  | .dict d =>
    codingFieldSafe d "clinicalStatus" && codingFieldSafe d "verificationStatus" &&
    codingFieldSafe d "code" && codingFieldSafe d "valueCodeableConcept" &&
    (!((dget d "resourceType").getD .none == .str "MedicationStatement") ||
      codingFieldSafe d "medicationCodeableConcept") &&
    (!((dget d "resourceType").getD .none == .str "Condition") ||
      (codingFieldSafe d "severity" && codingFieldSafe d "bodySite")) &&
    (!((dget d "resourceType").getD .none == .str "Observation") ||
      (codingFieldSafe d "interpretation" && componentSafe d))
  | _ => true

/-- A bundle entry on which the entry loop cannot raise: a dict whose
`resource` value (if any) is resource-safe. -/
def entrySafe (e : PyVal) : Bool :=
  match e with
  | .dict d =>
    match dget d "resource" with
    | Option.some r => resourceSafe r
    | Option.none => true
  | _ => false

/-- A bundle on which `minimize_fhir_bundle` cannot raise: its `entry`
value, when present, is a list of safe entries. -/
def bundleSafe (b : PyVal) : Bool :=
  match b with
  | .dict d =>
    match dget d "entry" with
    | Option.none => true
    | Option.some (.list es) => es.all entrySafe
    | Option.some _ => false
  | _ => true

theorem simplify_coding_ok_of_safe {v : PyVal} (h : codingSafe v = true) :
    ∃ w, simplify_coding v = .ok w := by
  cases hx : simplify_coding v with
  | ok w => exact ⟨w, rfl⟩
  | error e =>
    exfalso
    by_cases ht : pyTruthy v
    · cases v with
      | dict d =>
        cases hc : dget d "coding" with
        | some codings =>
          cases codings with
          | list l =>
            cases l with
            | nil => simp [simplify_coding, ht, hc] at hx
            | cons p rest =>
              cases p with
              | dict pd => simp [simplify_coding, ht, hc, pyGetD, ok_bind] at hx
              | none => simp [codingSafe, hc, PyVal.isDict] at h
              | bool b => simp [codingSafe, hc, PyVal.isDict] at h
              | int n => simp [codingSafe, hc, PyVal.isDict] at h
              | str s => simp [codingSafe, hc, PyVal.isDict] at h
              | list l2 => simp [codingSafe, hc, PyVal.isDict] at h
          | none => simp [simplify_coding, ht, hc] at hx
          | bool b => simp [simplify_coding, ht, hc] at hx
          | int n => simp [simplify_coding, ht, hc] at hx
          | str s => simp [simplify_coding, ht, hc] at hx
          | dict d2 => simp [simplify_coding, ht, hc] at hx
        | none =>
          by_cases hs : ((dget d "system").isSome = true ∨ (dget d "code").isSome = true)
          · simp [simplify_coding, ht, hc, hs] at hx
          · simp [simplify_coding, ht, hc, hs] at hx
      | none => simp [simplify_coding, ht] at hx
      | bool b => simp [simplify_coding, ht] at hx
      | int n => simp [simplify_coding, ht] at hx
      | str s => simp [simplify_coding, ht] at hx
      | list l => simp [simplify_coding, ht] at hx
    · simp [simplify_coding, ht] at hx

theorem codingSeg_ok_of_safe {d : List (String × PyVal)} {k : String}
    (h : codingFieldSafe d k = true) : ∃ s, codingSeg d k = .ok s := by
  unfold codingFieldSafe at h
  cases hd : dget d k with
  | none => exact ⟨[], by simp [codingSeg, hd]⟩
  | some v =>
    rw [hd] at h
    obtain ⟨w, hw⟩ := simplify_coding_ok_of_safe h
    exact ⟨[(k, w)], by simp [codingSeg, hd, hw, ok_bind]⟩

theorem sliceSeg_ok_of_safe {d : List (String × PyVal)}
    (h : componentSafe d = true) : ∃ s, sliceSeg d "component" 3 = .ok s := by
  unfold componentSafe at h
  cases hd : dget d "component" with
  | none => exact ⟨[], by simp [sliceSeg, hd]⟩
  | some v =>
    rw [hd] at h
    cases v with
    | list l =>
      exact ⟨[("component", .list (l.take 3))], by simp [sliceSeg, hd, pySliceTo, ok_bind]⟩
    | str s =>
      exact ⟨[("component", .str (String.mk (s.data.take 3)))],
        by simp [sliceSeg, hd, pySliceTo, ok_bind]⟩
    | none => simp [PyVal.isList, PyVal.isStr] at h
    | bool b => simp [PyVal.isList, PyVal.isStr] at h
    | int n => simp [PyVal.isList, PyVal.isStr] at h
    | dict d2 => simp [PyVal.isList, PyVal.isStr] at h

theorem minimize_resource_ok_of_safe {r : PyVal} (h : resourceSafe r = true) :
    ∃ m, minimize_resource r = .ok m := by
  cases r with
  | dict d =>
    by_cases hd : d = []
    · subst hd
      exact ⟨.dict [], by simp [minimize_resource]⟩
    · unfold resourceSafe at h
      simp only [Bool.and_eq_true, Bool.or_eq_true] at h
      obtain ⟨⟨⟨⟨⟨⟨h2, h3⟩, h4⟩, h7⟩, hm⟩, hc⟩, ho⟩ := h
      obtain ⟨s2, hs2⟩ := codingSeg_ok_of_safe h2
      obtain ⟨s3, hs3⟩ := codingSeg_ok_of_safe h3
      obtain ⟨s4, hs4⟩ := codingSeg_ok_of_safe h4
      obtain ⟨s7, hs7⟩ := codingSeg_ok_of_safe h7
      have hmed : ∃ s, medSeg d ((dget d "resourceType").getD .none) = .ok s := by
        unfold medSeg
        by_cases hrt : (dget d "resourceType").getD PyVal.none = .str "MedicationStatement"
        · rw [if_pos hrt]
          rcases hm with hm | hm
          · simp [hrt] at hm
          · obtain ⟨a, ha⟩ := codingSeg_ok_of_safe hm
            exact ⟨a ++ guardedSliceSeg d "dosage" 1, by simp [ha, ok_bind]⟩
        · exact ⟨[], by rw [if_neg hrt]⟩
      have hcond : ∃ s, condSeg d ((dget d "resourceType").getD .none) = .ok s := by
        unfold condSeg
        by_cases hrt : (dget d "resourceType").getD PyVal.none = .str "Condition"
        · rw [if_pos hrt]
          rcases hc with hc | hc
          · simp [hrt] at hc
          · obtain ⟨hca, hcb⟩ := hc
            obtain ⟨a, ha⟩ := codingSeg_ok_of_safe hca
            obtain ⟨b, hb⟩ := codingSeg_ok_of_safe hcb
            exact ⟨a ++ b, by simp [ha, hb, ok_bind]⟩
        · exact ⟨[], by rw [if_neg hrt]⟩
      have hobs : ∃ s, obsSeg d ((dget d "resourceType").getD .none) = .ok s := by
        unfold obsSeg
        by_cases hrt : (dget d "resourceType").getD PyVal.none = .str "Observation"
        · rw [if_pos hrt]
          rcases ho with ho | ho
          · simp [hrt] at ho
          · obtain ⟨hoa, hob⟩ := ho
            obtain ⟨a, ha⟩ := codingSeg_ok_of_safe hoa
            obtain ⟨b, hb⟩ := sliceSeg_ok_of_safe hob
            exact ⟨a ++ b, by simp [ha, hb, ok_bind]⟩
        · exact ⟨[], by rw [if_neg hrt]⟩
      obtain ⟨med, hmed⟩ := hmed
      obtain ⟨cond, hcond⟩ := hcond
      obtain ⟨obs, hobs⟩ := hobs
      refine ⟨.dict (mkFields d ((dget d "resourceType").getD .none) s2 s3 s4 s7 med cond obs), ?_⟩
      simp only [minimize_resource]
      rw [if_neg hd]
      simp only [hs2, hs3, hs4, hs7, hmed, hcond, hobs, ok_bind]
  | none => exact ⟨.none, by simp [minimize_resource]⟩
  | bool b => exact ⟨.bool b, by simp [minimize_resource]⟩
  | int n => exact ⟨.int n, by simp [minimize_resource]⟩
  | str s => exact ⟨.str s, by simp [minimize_resource]⟩
  | list l => exact ⟨.list l, by simp [minimize_resource]⟩

theorem minimize_entries_ok_of_safe : ∀ {es : List PyVal},
    es.all entrySafe = true → ∃ es', minimize_entries es = .ok es' := by
  intro es
  induction es with
  | nil => exact fun _ => ⟨[], by simp [minimize_entries]⟩
  | cons entry rest ih =>
    intro h
    rw [List.all_cons, Bool.and_eq_true] at h
    obtain ⟨he, hrest⟩ := h
    obtain ⟨rest', hrest'⟩ := ih hrest
    cases entry with
    | dict ed =>
      cases hr : dget ed "resource" with
      | none =>
        exact ⟨rest', by simp [minimize_entries, pyInOp, hr, ok_bind, hrest']⟩
      | some r =>
        simp only [entrySafe, hr] at he
        obtain ⟨mr, hmr⟩ := minimize_resource_ok_of_safe he
        refine ⟨.dict [("fullUrl", (dget ed "fullUrl").getD .none), ("resource", mr)] :: rest', ?_⟩
        simp [minimize_entries, pyInOp, hr, pySubscr, pyGetD, hmr, hrest', ok_bind]
    | none => simp [entrySafe] at he
    | bool b => simp [entrySafe] at he
    | int n => simp [entrySafe] at he
    | str s => simp [entrySafe] at he
    | list l => simp [entrySafe] at he

/-- C4 counterexample: on the bundle `{"entry": [0]}` — whose single
entry is a non-dict, a shape the claim says is handled totally — the
minimizer raises `TypeError` (Python evaluates `"resource" in 0`), so
`minimize_fhir_bundle` is not total. -/
theorem minimize_fhir_bundle_total_counterexample :
    minimize_fhir_bundle (.dict [("entry", .list [.int 0])]) = .error "TypeError" := by
  decide

/-- C4 amended: `minimize_fhir_bundle` never raises on any bundle whose
`entry` value (when present) is a list of dict entries whose resources
carry dict first coding entries and sliceable Observation components
(`bundleSafe`); outside that shape it can raise, as the counterexample
shows. -/
theorem minimize_fhir_bundle_total_on_safe {b : PyVal} (h : bundleSafe b = true) :
    ∃ m, minimize_fhir_bundle b = .ok m := by
  cases b with
  | dict d =>
    by_cases hd : d = []
    · subst hd
      exact ⟨.dict [], by simp [minimize_fhir_bundle]⟩
    · simp only [bundleSafe] at h
      cases he : dget d "entry" with
      | none =>
        refine ⟨.dict [("resourceType", (dget d "resourceType").getD (.str "Bundle")),
          ("type", (dget d "type").getD .none), ("total", (dget d "total").getD .none),
          ("entry", .list [])], ?_⟩
        simp only [minimize_fhir_bundle]
        rw [if_neg hd]
        simp [he, pyIter, minimize_entries, ok_bind]
      | some entries =>
        simp only [he] at h
        cases entries with
        | list es =>
          obtain ⟨es', hes⟩ := minimize_entries_ok_of_safe h
          refine ⟨.dict [("resourceType", (dget d "resourceType").getD (.str "Bundle")),
            ("type", (dget d "type").getD .none), ("total", (dget d "total").getD .none),
            ("entry", .list es')], ?_⟩
          simp only [minimize_fhir_bundle]
          rw [if_neg hd]
          simp [he, pyIter, hes, ok_bind]
        | none => cases h
        | bool x => cases h
        | int n => cases h
        | str s => cases h
        | dict d2 => cases h
  | none => exact ⟨.none, by simp [minimize_fhir_bundle]⟩
  | bool x => exact ⟨.bool x, by simp [minimize_fhir_bundle]⟩
  | int n => exact ⟨.int n, by simp [minimize_fhir_bundle]⟩
  | str s => exact ⟨.str s, by simp [minimize_fhir_bundle]⟩
  | list l => exact ⟨.list l, by simp [minimize_fhir_bundle]⟩

/-- Witness for the amended C4 at a mixed Observation/MedicationStatement
bundle satisfying the shape condition. -/
theorem minimize_fhir_bundle_total_on_safe_witness :
    bundleSafe (.dict [("entry", .list [
      .dict [("resource", .dict [("resourceType", .str "Observation"), ("id", .str "o1"),
        ("component", .list [.dict [("code", .str "a")], .dict [("code", .str "b")],
          .dict [("code", .str "c")], .dict [("code", .str "d")]]),
        ("interpretation", .dict [("coding", .list [.dict [("code", .str "H")]])])]),
        ("search", .str "match")],
      .dict [("resource", .dict [("resourceType", .str "MedicationStatement"),
        ("id", .str "m1"), ("dosage", .list [.str "d1", .str "d2"])])]])]) = true ∧
    (∃ m, minimize_fhir_bundle (.dict [("entry", .list [
      .dict [("resource", .dict [("resourceType", .str "Observation"), ("id", .str "o1"),
        ("component", .list [.dict [("code", .str "a")], .dict [("code", .str "b")],
          .dict [("code", .str "c")], .dict [("code", .str "d")]]),
        ("interpretation", .dict [("coding", .list [.dict [("code", .str "H")]])])]),
        ("search", .str "match")],
      .dict [("resource", .dict [("resourceType", .str "MedicationStatement"),
        ("id", .str "m1"), ("dosage", .list [.str "d1", .str "d2"])])]])]) = .ok m) :=
  ⟨by decide, minimize_fhir_bundle_total_on_safe (by decide)⟩

/-! ## String helpers for the provider-search tool (`src/tools/provider_search.py`) -/

/-- Python `str.strip()` restricted to whitespace (the only use here). -/
def pyStrip (s : String) : String :=
  String.mk (((s.data.dropWhile Char.isWhitespace).reverse.dropWhile Char.isWhitespace).reverse)

/-- `s.split(c)[0]`: the prefix of `s` before the first occurrence of `c`. -/
def pySplitFirst (s : String) (c : Char) : String :=
  String.mk (s.data.takeWhile (fun x => x ≠ c))

/-- Python `str.isdigit()` on the ASCII digits this code deals with. -/
def pyIsdigit (s : String) : Bool :=
  !s.data.isEmpty && s.data.all Char.isDigit

/-- Python `str.zfill(n)` as used here: the guarded call sites apply it
only to all-digit strings, so no sign handling is needed. -/
def pyZfill (s : String) (n : Nat) : String :=
  if s.length < n then String.mk (List.replicate (n - s.length) '0' ++ s.data) else s

mutual

/-- Python `repr` of a model value (containers print their reprs; string
quoting uses bare single quotes — none of the repository's display
strings contain quotes to escape). -/
def pyRepr : PyVal → String
  | .none => "None"
  | .bool true => "True"
  | .bool false => "False"
  | .int n => toString n
  | .str s => "\x27" ++ s ++ "\x27"
  | .list l => "[" ++ pyReprList l ++ "]"
  | .dict d => "\x7b" ++ pyReprDict d ++ "\x7d"

/-- Comma-joined reprs of list elements. -/
def pyReprList : List PyVal → String
  | [] => ""
  | [x] => pyRepr x
  | x :: xs => pyRepr x ++ ", " ++ pyReprList xs

/-- Comma-joined `key: value` reprs of dict items. -/
def pyReprDict : List (String × PyVal) → String
  | [] => ""
  | [(k, v)] => "\x27" ++ k ++ "\x27: " ++ pyRepr v
  | (k, v) :: xs => "\x27" ++ k ++ "\x27: " ++ pyRepr v ++ ", " ++ pyReprDict xs

end

/-- Python `str(v)`: identity on strings, `repr`-like otherwise. -/
def pyStrOf : PyVal → String
  | .str s => s
  | v => pyRepr v

/-- The shared postal-code normalization of `provider_search.py`
(lines 80-84 and their verbatim copy at lines 96-99):
`str(postal_code).split('-')[0].strip()`, then left-zero-pad pure digit
strings shorter than five characters. -/
def normalize_postal (postal : PyVal) : String :=
  let z := pyStrip (pySplitFirst (pyStrOf postal) '-')
  if pyIsdigit z && z.length < 5 then pyZfill z 5 else z

/-- The address scan shared by both branches of `extract_zip_from_fhir`:
first address entry, its `postalCode`, normalized; `None` when any guard
fails or the normalized string is empty. -/
def patient_address_zip (d : List (String × PyVal)) : Option String :=
  match (dget d "address").getD (.list []) with
  | .list (first :: _) =>
    match first with
    | .dict fd =>
      if pyTruthy ((dget fd "postalCode").getD .none) then
        let z := normalize_postal ((dget fd "postalCode").getD .none)
        if z = "" then Option.none else Option.some z
      else Option.none
    | _ => Option.none
  | _ => Option.none

/-- The entry loop of `extract_zip_from_fhir` (lines 67-85): scan for a
Patient resource and return its first address's normalized postal code.
A non-dict `resource` value raises at `resource.get("resourceType")`. -/
def extract_zip_entry_scan : List PyVal → Except String (Option String)
  | [] => .ok Option.none
  | entry :: rest =>
    let resource := match entry with
      | .dict ed => (dget ed "resource").getD (.dict [])
      | _ => .dict []
    match resource with
    | .dict rd =>
      if (dget rd "resourceType").getD .none = .str "Patient" then
        match patient_address_zip rd with
        | Option.some z => .ok (Option.some z)
        | Option.none => extract_zip_entry_scan rest
      else extract_zip_entry_scan rest
    | _ => .error "AttributeError"

/-- `extract_zip_from_fhir` from `provider_search.py` lines 50-103. -/
def extract_zip_from_fhir (fhir_data : PyVal) : Except String (Option String) :=
  if ¬ pyTruthy fhir_data then .ok Option.none
  else
    match fhir_data with
    | .dict d =>
      let entries := (dget d "entry").getD (.list [])
      if pyTruthy entries then do
        let entryList ← pyIter entries
        extract_zip_entry_scan entryList
      else
        if (dget d "resourceType").getD .none = .str "Patient" then
          match patient_address_zip d with
          | Option.some z => .ok (Option.some z)
          | Option.none => .ok Option.none
        else .ok Option.none
    | _ => .ok Option.none

/-- The caller-supplied-zip cleanup of `execute` (lines 131-135):
`str(zip_code).strip()`, then left-zero-pad pure digit strings — with no
removal of a `+4` suffix. -/
def clean_zip (z : String) : String :=
  let z2 := pyStrip z
  if pyIsdigit z2 && z2.length < 5 then pyZfill z2 5 else z2

/-- `execute`'s ZIP resolution (lines 119-135): use the caller's zip when
non-blank, otherwise extract from the FHIR data; `Option.none` models the
explanatory-error return when no zip is resolvable; a resolved zip is
passed through `clean_zip` into the request parameters. -/
def execute_resolve_zip (zip_code : Option String) (fhir_data : PyVal) :
    Except String (Option String) := do
  let z ←
    if (match zip_code with
        | Option.none => true
        | Option.some s => s == "" || pyStrip s == "") then
      (if pyTruthy fhir_data then extract_zip_from_fhir fhir_data else .ok zip_code)
    else .ok zip_code
  match z with
  | Option.some s =>
    if s = "" ∨ pyStrip s = "" then .ok Option.none
    else .ok (Option.some (clean_zip s))
  | Option.none => .ok Option.none

/-- A one-entry bundle whose Patient demographic record carries the given
postal code — the extraction-path test input for C9. -/
def zipBundle (postal : String) : PyVal :=
  .dict [("resourceType", .str "Bundle"),
    ("entry", .list [.dict [("resource", .dict [("resourceType", .str "Patient"),
      ("id", .str "p1"),
      ("address", .list [.dict [("city", .str "Boston"), ("postalCode", .str postal)]])])]])]

/-- C9 counterexample: for a caller-supplied zip code, `execute` performs
no `+4`-suffix removal — `"2114-1234"` is passed through unchanged
(`"2114-1234".isdigit()` is false, so it is neither split nor padded),
not normalized to `"02114"` as the claim states. -/
theorem execute_zip_plus4_counterexample :
    execute_resolve_zip (Option.some "2114-1234") .none = .ok (Option.some "2114-1234") ∧
    ¬ ((("2114-1234" : String)) = "02114") := by
  decide

/-- C9 amended: the drop-`+4`/zero-pad normalization maps `"2114-1234"`
to `"02114"`, `"9021"` to `"09021"` and leaves `"90210"` unchanged when
extracting from a demographic record's first address (directly and
through `execute`); for a caller-supplied zip code only strip-and-pad
applies, so `"9021"` → `"09021"` and `"90210"` → `"90210"` still hold but
`"2114-1234"` is passed through unchanged. -/
theorem postal_normalization_paths :
    extract_zip_from_fhir (zipBundle "2114-1234") = .ok (Option.some "02114") ∧
    extract_zip_from_fhir (zipBundle "9021") = .ok (Option.some "09021") ∧
    extract_zip_from_fhir (zipBundle "90210") = .ok (Option.some "90210") ∧
    execute_resolve_zip Option.none (zipBundle "2114-1234") = .ok (Option.some "02114") ∧
    execute_resolve_zip (Option.some "9021") .none = .ok (Option.some "09021") ∧
    execute_resolve_zip (Option.some "90210") .none = .ok (Option.some "90210") ∧
    execute_resolve_zip (Option.some "2114-1234") .none = .ok (Option.some "2114-1234") := by
  decide

/-! ## Prompts and safety interceptor (`src/llm/prompts.py`) -/

/-- The fixed system prompt (`prompts.py` lines 5-37). -/
def SYSTEM_PROMPT : String :=
  "You are an AI Health Companion, a supportive assistant that helps patients understand their health information.\n\nCRITICAL SAFETY RULES:\n1. You are NOT a medical professional. Always state this when discussing medical conditions.\n2. You provide information for awareness only - never make definitive diagnoses or treatment decisions.\n3. Always include disclaimers: \"I\x27m not a medical professional. This information is for awareness only. Please discuss with a clinician.\"\n4. Use a calm, supportive, non-judgmental, and non-alarmist tone.\n5. Avoid certainty in clinical matters - always defer to clinicians.\n6. If you detect emergency language, immediately stop and instruct the user to call 911.\n\nCAPABILITIES:\n- Explain medical information in patient-friendly language\n- Help interpret FHIR health data (diagnoses, medications, observations, encounters)\n- Suggest questions to discuss with healthcare providers\n- Provide general health information and support\n- Search for healthcare providers by ZIP code (automatically uses patient\x27s ZIP code from their health records)\n- Help find clinical trials (when tools are available)\n\nCONVERSATION STYLE:\n- Natural, organic conversation - no menus or decision trees\n- Supportive and empathetic\n- Clear and simple language (avoid medical jargon when possible)\n- Ask clarifying questions when needed\n- Let the conversation flow naturally based on user needs\n\nFHIR DATA CONTEXT:\nYou will receive raw FHIR resources (JSON format) for the patient. Use this data to:\n- Provide personalized insights\n- Explain conditions, medications, and observations\n- Identify potential care gaps or questions to discuss with clinicians\n- Frame everything as observations, possibilities, or questions - never definitive statements\n\nRemember: All medical decisions must be made by qualified healthcare professionals."

/-- The fixed emergency vocabulary (`prompts.py` lines 40-46). -/
def EMERGENCY_KEYWORDS : List String :=
  ["chest pain", "heart attack", "can\x27t breathe", "can\x27t breath", "choking",
   "severe pain", "unconscious", "bleeding heavily", "severe bleeding",
   "stroke", "severe headache", "suicide", "self harm", "overdose",
   "severe allergic reaction", "anaphylaxis", "severe burn", "broken bone",
   "severe injury", "emergency", "911", "ambulance", "urgent"]

/-- Python `str.lower()`, character-wise (ASCII-faithful). -/
def pyLower (s : String) : String :=
  String.mk (s.data.map Char.toLower)

/-- `check_emergency` from `prompts.py` lines 49-60:
`any(keyword in user_input.lower() for keyword in EMERGENCY_KEYWORDS)`. -/
def check_emergency (user_input : String) : Bool :=
  EMERGENCY_KEYWORDS.any fun keyword => strIn keyword.data (pyLower user_input).data

/-- `get_emergency_response` from `prompts.py` lines 63-65. -/
def get_emergency_response : String :=
  "This may be an emergency. Please call 911 immediately."

/-- The boolean substring test is complete for list-infix containment. -/
theorem strIn_of_isInfix : ∀ {hay needle : List Char}, needle <:+: hay →
    strIn needle hay = true := by
  intro hay
  induction hay with
  | nil =>
    intro needle h
    have : needle = [] := by simpa using h
    subst this
    rfl
  | cons c rest ih =>
    intro needle h
    rcases List.infix_cons_iff.mp h with hpre | hinf
    · simp [strIn, List.isPrefixOf_iff_prefix, hpre]
    · simp [strIn, ih hinf]

/-! ## Context builder (`orchestrator.py`, `_build_messages` lines 90-136) -/

/-- The explicit truncation marker interpolated at line 119:
`[Data truncated due to size - N chars omitted]` with
`N = fhir_size - 200000`. -/
def truncation_marker (size : Nat) : List Char :=
  ("[Data truncated due to size - " ++ toString (size - 200000) ++ " chars omitted]").data

/-- The FHIR context string appended to the system message
(lines 110-121), given the serialized JSON: the whole document below the
200,000-character threshold, the first 200,000 characters plus the
truncation marker above it. -/
def build_fhir_context (fhirJson : List Char) : List Char :=
  let size := fhirJson.length
  if 200000 < size then
    ("\n\nPATIENT FHIR DATA (minimized raw JSON, " ++ toString size ++ " chars):\n").data ++
      fhirJson.take 200000 ++ "...\n".data ++ truncation_marker size ++
      "\n\nUse this data to provide personalized, context-aware responses.".data
  else
    "\n\nPATIENT FHIR DATA (minimized raw JSON):\n".data ++ fhirJson ++
      "\n\nUse this data to provide personalized, context-aware responses.".data

/-- The content of the system message built by `_build_messages`
(lines 105-127): the system prompt, extended with the serialized FHIR
context when data is present, or with a degradation note when
serialization fails (`json.dumps` is the `dumps` parameter). -/
def build_system_content (dumps : PyVal → Except String String) (fhir_data : PyVal) : String :=
  if pyTruthy fhir_data then
    match dumps fhir_data with
    | .ok j => SYSTEM_PROMPT ++ String.mk (build_fhir_context j.data)
    | .error _ =>
      SYSTEM_PROMPT ++ "\n\nNote: Patient FHIR data is available but could not be included in this request."
  else SYSTEM_PROMPT

/-- C6: when the serialized minimized document exceeds 200,000
characters, the system-message context built by `_build_messages`
contains the explicit `[Data truncated due to size - N chars omitted]`
marker with `N` the number of characters dropped, the included document
content is exactly the first 200,000 characters (never silently
dropped), and its length is at most the threshold plus the marker
length. -/
theorem build_messages_truncation_marker (dumps : PyVal → Except String String)
    (fhir_data : PyVal) (j : String) (h1 : pyTruthy fhir_data = true)
    (h2 : dumps fhir_data = .ok j) (h3 : 200000 < j.data.length) :
    ∃ pre post,
      (build_system_content dumps fhir_data).data =
        pre ++ truncation_marker j.data.length ++ post ∧
      pre = SYSTEM_PROMPT.data ++
        ("\n\nPATIENT FHIR DATA (minimized raw JSON, " ++ toString j.data.length ++
          " chars):\n").data ++ j.data.take 200000 ++ "...\n".data ∧
      (j.data.take 200000).length ≤ 200000 ∧
      (j.data.take 200000).length ≤ 200000 + (truncation_marker j.data.length).length := by
  refine ⟨SYSTEM_PROMPT.data ++
    ("\n\nPATIENT FHIR DATA (minimized raw JSON, " ++ toString j.data.length ++
      " chars):\n").data ++ j.data.take 200000 ++ "...\n".data,
    "\n\nUse this data to provide personalized, context-aware responses.".data, ?_, rfl, ?_, ?_⟩
  · simp only [build_system_content, h1, if_true, h2, build_fhir_context]
    rw [if_pos h3]
    rw [String.data_append]
    simp [List.append_assoc]
  · simp [List.length_take]
  · have : (j.data.take 200000).length ≤ 200000 := by simp [List.length_take]
    omega

/-- A 200,001-character serialized document for the C6 witness. -/
def exBigJson : String := String.mk (List.replicate 200001 'a')

/-- Witness for C6 with a concrete over-threshold serialization. -/
theorem build_messages_truncation_marker_witness :
    pyTruthy (.bool true) = true ∧
    (fun _ => Except.ok exBigJson : PyVal → Except String String) (.bool true) = .ok exBigJson ∧
    200000 < exBigJson.data.length ∧
    (∃ pre post,
      (build_system_content (fun _ => .ok exBigJson) (.bool true)).data =
        pre ++ truncation_marker exBigJson.data.length ++ post ∧
      pre = SYSTEM_PROMPT.data ++
        ("\n\nPATIENT FHIR DATA (minimized raw JSON, " ++ toString exBigJson.data.length ++
          " chars):\n").data ++ exBigJson.data.take 200000 ++ "...\n".data ∧
      (exBigJson.data.take 200000).length ≤ 200000 ∧
      (exBigJson.data.take 200000).length ≤ 200000 +
        (truncation_marker exBigJson.data.length).length) := by
  have hlen : 200000 < exBigJson.data.length := by
    have hdata : exBigJson.data = List.replicate 200001 'a' := rfl
    rw [hdata, List.length_replicate]
    norm_num
  exact ⟨rfl, rfl, hlen,
    build_messages_truncation_marker (fun _ => .ok exBigJson) (.bool true) exBigJson rfl rfl hlen⟩

/-! ## Orchestrator (`src/llm/orchestrator.py`)

The LLM client, `json.loads`, `json.dumps` and the provider tool's
`execute` (a network call) are opaque collaborators, passed as function
parameters; `llm` is indexed by the number of calls made so far and an
`Except.error` models a raised transport exception.  Python list objects
(`conversation_history`, the `messages` list) live in an explicit heap of
lists addressed by index, because claim C10 is about which lists the code
mutates; dict values are immutable once constructed (the code never
mutates a dict after sharing it). -/

/-- One tool invocation inside a model response
(`id`, `type`, `function.name`, `function.arguments`). -/
structure ToolCallV where
  id : String
  type_ : String
  name : String
  arguments : String
deriving DecidableEq

/-- One model response: final content and/or requested tool calls
(the empty list models `tool_calls = None`). -/
structure ModelMsgV where
  content : Option String
  tool_calls : List ToolCallV
deriving DecidableEq

/-- The store of Python list objects; references are indices. -/
abbrev Heap := List (List PyVal)

/-- Read the list behind a reference. -/
def readRef (h : Heap) (r : Nat) : List PyVal :=
  (h.get? r).getD []

/-- Replace the list behind a reference. -/
def writeRef (h : Heap) (r : Nat) (l : List PyVal) : Heap :=
  h.set r l

/-- Allocate a fresh list object; the reference is the old heap length. -/
def allocRef (h : Heap) (l : List PyVal) : Heap × Nat :=
  (h ++ [l], h.length)

/-- `list.append(v)` on the list behind a reference. -/
def appendRef (h : Heap) (r : Nat) (v : PyVal) : Heap :=
  h.set r (readRef h r ++ [v])

/-- The try-block of `_execute_tool` (lines 271-302): dispatch on the
function name; the provider branch formats the tool result; any other
name synthesizes the `Unknown function` failure.  `providerExec` models
`tool.execute(fhir_data=..., **function_args)`. -/
def execute_tool_try (tools : List String)
    (providerExec : PyVal → PyVal → Except String PyVal)
    (function_name : String) (function_args : PyVal) (fhir_data : PyVal) :
    Except String PyVal :=
  if function_name = "search_providers_by_zip" then
    if ¬ (tools.contains "search_providers_by_zip") then
      .ok (.dict [("success", .bool false),
        ("error", .str "Provider search tool is not available")])
    else do
      let result ← providerExec fhir_data function_args
      let succ ← pyGetD result "success" .none
      if pyTruthy succ then do
        let provs ← pyGetD result "data" (.list [])
        let cnt ← pyGetD result "count" (.int 0)
        let zipv ← pyGetD result "zip_code" .none
        .ok (.dict [("success", .bool true), ("count", cnt), ("zip_code", zipv),
          ("providers", provs),
          ("summary", .str ("Found " ++ pyStrOf cnt ++ " provider(s) in ZIP code " ++
            pyStrOf zipv))])
      else do
        let err ← pyGetD result "error" (.str "Unknown error during provider search")
        .ok (.dict [("success", .bool false), ("error", err)])
  else
    .ok (.dict [("success", .bool false),
      ("error", .str ("Unknown function: " ++ function_name))])

/-- `_execute_tool` (lines 259-307): the catch-all handler converts any
exception into a structured failure result. -/
def execute_tool (tools : List String)
    (providerExec : PyVal → PyVal → Except String PyVal)
    (function_name : String) (function_args : PyVal) (fhir_data : PyVal) : PyVal :=
  match execute_tool_try tools providerExec function_name function_args fhir_data with
  | .ok r => r
  | .error e => .dict [("success", .bool false),
      ("error", .str ("Error executing tool " ++ function_name ++ ": " ++ e))]

/-- C8 counterexample: for the unregistered name `"foo"` the synthesized
error message is `"Unknown function: foo"`, which does not contain the
claimed substring `"unknown"` (the code capitalizes it). -/
theorem execute_tool_unknown_counterexample :
    execute_tool [] (fun _ _ => .ok .none) "foo" .none .none =
      .dict [("success", .bool false), ("error", .str "Unknown function: foo")] ∧
    strIn "unknown".data "Unknown function: foo".data = false := by
  decide

/-- C8 amended: a tool invocation whose function name is not the
dispatched capability returns `{success: false, error: "Unknown
function: <name>"}` — an error containing `"Unknown"` — and the
try-block itself succeeds, so no exception is raised. -/
theorem execute_tool_unknown_function (tools : List String)
    (providerExec : PyVal → PyVal → Except String PyVal)
    (name : String) (args fhir : PyVal) (h : ¬ name = "search_providers_by_zip") :
    execute_tool_try tools providerExec name args fhir =
      .ok (.dict [("success", .bool false),
        ("error", .str ("Unknown function: " ++ name))]) ∧
    execute_tool tools providerExec name args fhir =
      .dict [("success", .bool false), ("error", .str ("Unknown function: " ++ name))] ∧
    strIn "Unknown".data ("Unknown function: " ++ name).data = true := by
  refine ⟨by simp [execute_tool_try, h], by simp [execute_tool, execute_tool_try, h], ?_⟩
  have hpre : ("Unknown".data) <+: ("Unknown function: " ++ name).data := by
    rw [String.data_append]
    have h2 : ("Unknown function: ").data = "Unknown".data ++ " function: ".data := by decide
    rw [h2, List.append_assoc]
    exact List.prefix_append _ _
  exact strIn_of_isInfix hpre.isInfix

/-- Witness for the amended C8 at the concrete name `"find_trials"`. -/
theorem execute_tool_unknown_function_witness :
    ¬ (("find_trials" : String) = "search_providers_by_zip") ∧
    execute_tool_try [] (fun _ _ => .ok .none) "find_trials" .none .none =
      .ok (.dict [("success", .bool false),
        ("error", .str ("Unknown function: " ++ "find_trials"))]) ∧
    execute_tool [] (fun _ _ => .ok .none) "find_trials" .none .none =
      .dict [("success", .bool false),
        ("error", .str ("Unknown function: " ++ "find_trials"))] ∧
    strIn "Unknown".data ("Unknown function: " ++ "find_trials").data = true := by
  have h := execute_tool_unknown_function [] (fun _ _ => .ok .none) "find_trials" .none .none
    (by decide)
  exact ⟨by decide, h.1, h.2.1, h.2.2⟩

/-- The exception handler of `generate_response` (lines 243-257): map a
raised message onto one of the canned user-facing fallbacks. -/
def handle_llm_error (e : String) : String :=
  let lo := pyLower e
  if strIn "context_length_exceeded".data lo.data || strIn "token".data lo.data then
    "I apologize, but the health data is too large to process. Please contact technical staff for assistance."
  else if strIn "timeout".data lo.data then
    "I apologize, but the request timed out. Please try again with a more specific question."
  else
    "I apologize, but I encountered an error: " ++ e ++ ". Please try again."

/-- `message.content or "I apologize, but I couldn't generate a
response."` (line 235) — Python `or` also replaces the empty string. -/
def content_or_default (c : Option String) : String :=
  match c with
  | Option.some s => if s = "" then "I apologize, but I couldn\x27t generate a response." else s
  | Option.none => "I apologize, but I couldn\x27t generate a response."

/-- `None`-or-string content as a Python value. -/
def optContent : Option String → PyVal
  | Option.some s => .str s
  | Option.none => .none

/-- The per-call dict of lines 201-208. -/
def tool_call_dict (tc : ToolCallV) : PyVal :=
  .dict [("id", .str tc.id), ("type", .str tc.type_),
    ("function", .dict [("name", .str tc.name), ("arguments", .str tc.arguments)])]

/-- The assistant message of lines 193-209: role and content, plus the
`tool_calls` key when the response carries tool calls. -/
def assistant_dict (m : ModelMsgV) : PyVal :=
  if m.tool_calls.isEmpty then
    .dict [("role", .str "assistant"), ("content", optContent m.content)]
  else
    .dict [("role", .str "assistant"), ("content", optContent m.content),
      ("tool_calls", .list (m.tool_calls.map tool_call_dict))]

/-- The tool-dispatch loop of lines 216-228: parse each call's arguments
(`loads`), execute it, and append the serialized result (`dumps`) as a
`tool` message; a raised parse/serialize error propagates to the
surrounding handler. -/
def process_tool_calls (loads : String → Except String PyVal)
    (dumps : PyVal → Except String String) (tools : List String)
    (providerExec : PyVal → PyVal → Except String PyVal) (fhir_data : PyVal)
    (msgs_ref : Nat) : List ToolCallV → Heap → Heap × Except String Unit
  | [], h => (h, .ok ())
  | tc :: rest, h =>
    match loads tc.arguments with
    | .error e => (h, .error e)
    | .ok args =>
      match dumps (execute_tool tools providerExec tc.name args fhir_data) with
      | .error e => (h, .error e)
      | .ok content =>
        process_tool_calls loads dumps tools providerExec fhir_data msgs_ref rest
          (appendRef h msgs_ref (.dict [("role", .str "tool"),
            ("tool_call_id", .str tc.id), ("content", .str content)]))

/-- The while-loop of `generate_response` (lines 168-241), including the
post-loop fallbacks of lines 237-241.  `iteration` and `calls` mirror the
source counter and the number of LLM calls made; the returned `PyVal` is
the Python return value (`.none` for a returned `None`). -/
def generate_response_loop (llm : Nat → Except String ModelMsgV)
    (loads : String → Except String PyVal) (dumps : PyVal → Except String String)
    (tools : List String) (providerExec : PyVal → PyVal → Except String PyVal)
    (fhir_data : PyVal) (msgs_ref : Nat) (h : Heap) (iteration calls : Nat) :
    Heap × Except String PyVal × Nat :=
  if iteration < 5 then
    match llm calls with
    | .error e => (h, .ok (.str (handle_llm_error e)), calls + 1)
    | .ok message =>
      let h1 := appendRef h msgs_ref (assistant_dict message)
      if message.tool_calls.isEmpty then
        (h1, .ok (.str (content_or_default message.content)), calls + 1)
      else
        match process_tool_calls loads dumps tools providerExec fhir_data msgs_ref
            message.tool_calls h1 with
        | (h2, .error e) => (h2, .ok (.str (handle_llm_error e)), calls + 1)
        | (h2, .ok ()) =>
          generate_response_loop llm loads dumps tools providerExec fhir_data msgs_ref h2
            (iteration + 1) (calls + 1)
  else
    match (readRef h msgs_ref).getLast? with
    | Option.none =>
      (h, .ok (.str "I apologize, but I encountered an issue processing your request."), calls)
    | Option.some last =>
      match pyGetD last "role" .none with
      | .error e => (h, .error e, calls)
      | .ok r =>
        if r = .str "assistant" then
          match pyGetD last "content"
              (.str "I apologize, but the conversation exceeded the maximum iterations.") with
          | .error e => (h, .error e, calls)
          | .ok v => (h, .ok v, calls)
        else
          (h, .ok (.str "I apologize, but I encountered an issue processing your request."), calls)
termination_by 5 - iteration

/-- The history-copy loop of `_build_messages` (lines 130-134): each
history message is reduced to a fresh `(role, content)` dict appended to
the messages list; a missing key raises `KeyError` out of the builder. -/
def append_history (msgs_ref : Nat) : List PyVal → Heap → Heap × Except String Unit
  | [], h => (h, .ok ())
  | msg :: rest, h =>
    match pySubscr msg "role" with
    | .error e => (h, .error e)
    | .ok r =>
      match pySubscr msg "content" with
      | .error e => (h, .error e)
      | .ok c =>
        append_history msgs_ref rest
          (appendRef h msgs_ref (.dict [("role", r), ("content", c)]))

/-- `_build_messages` (lines 90-136): allocate the fresh messages list
with the system message, extend the system content in place with the
FHIR context, then append reduced copies of the history messages. -/
def build_messages_h (dumps : PyVal → Except String String) (hist_ref : Nat)
    (fhir_data : PyVal) (h : Heap) : (Heap × Nat) × Except String Unit :=
  let p := allocRef h [.dict [("role", .str "system"), ("content", .str SYSTEM_PROMPT)]]
  let h2 :=
    if pyTruthy fhir_data then
      writeRef p.1 p.2 [.dict [("role", .str "system"),
        ("content", .str (build_system_content dumps fhir_data))]]
    else p.1
  let q := append_history p.2 (readRef h2 hist_ref) h2
  ((q.1, p.2), q.2)

/-- `generate_response` (lines 138-257): emergency short-circuit, history
extension into a fresh list, message building, then the bounded loop.
The result triple is (final heap, Python return value or uncaught
exception, number of LLM calls made). -/
def generate_response (llm : Nat → Except String ModelMsgV)
    (loads : String → Except String PyVal) (dumps : PyVal → Except String String)
    (tools : List String) (providerExec : PyVal → PyVal → Except String PyVal)
    (user_message : String) (conv_ref : Nat) (fhir_data : PyVal) (h : Heap) :
    Heap × Except String PyVal × Nat :=
  if check_emergency user_message then
    (h, .ok (.str get_emergency_response), 0)
  else
    match allocRef h (readRef h conv_ref ++
        [.dict [("role", .str "user"), ("content", .str user_message)]]) with
    | (h1, hist_ref) =>
      match build_messages_h dumps hist_ref fhir_data h1 with
      | ((h2, _), .error e) => (h2, .error e, 0)
      | ((h2, msgs_ref), .ok _) =>
        generate_response_loop llm loads dumps tools providerExec fhir_data msgs_ref h2 0 0

/-- C1: for every input containing an emergency-vocabulary term as a
case-insensitive substring (some substring of the input lowercases to
the term), `check_emergency` is true and `generate_response` returns the
fixed safety message with zero LLM calls and an untouched heap,
whatever the history, clinical data, tools and collaborators are. -/
theorem check_emergency_short_circuits (llm : Nat → Except String ModelMsgV)
    (loads : String → Except String PyVal) (dumps : PyVal → Except String String)
    (tools : List String) (providerExec : PyVal → PyVal → Except String PyVal)
    (user_message : String) (conv_ref : Nat) (fhir_data : PyVal) (h : Heap)
    (t k : String) (hk : k ∈ EMERGENCY_KEYWORDS) (hsub : t.data <:+: user_message.data)
    (hlow : pyLower t = k) :
    check_emergency user_message = true ∧
    generate_response llm loads dumps tools providerExec user_message conv_ref fhir_data h =
      (h, .ok (.str "This may be an emergency. Please call 911 immediately."), 0) := by
  have hce : check_emergency user_message = true := by
    unfold check_emergency
    rw [List.any_eq_true]
    refine ⟨k, hk, ?_⟩
    have hmap : t.data.map Char.toLower <:+: user_message.data.map Char.toLower := hsub.map _
    have hkd : k.data = t.data.map Char.toLower := by
      rw [← hlow]
      rfl
    rw [hkd]
    exact strIn_of_isInfix hmap
  refine ⟨hce, ?_⟩
  unfold generate_response
  rw [if_pos hce]
  rfl

/-- Witness for C1: the input `"I think I have severe Chest Pain"`
contains `"Chest Pain"`, which lowercases to the vocabulary term
`"chest pain"`. -/
theorem check_emergency_short_circuits_witness :
    check_emergency "I think I have severe Chest Pain" = true ∧
    generate_response (fun _ => .error "offline") (fun _ => .ok .none) (fun _ => .ok "")
      [] (fun _ _ => .ok .none) "I think I have severe Chest Pain" 0 .none [] =
      ([], .ok (.str "This may be an emergency. Please call 911 immediately."), 0) :=
  check_emergency_short_circuits (fun _ => .error "offline") (fun _ => .ok .none)
    (fun _ => .ok "") [] (fun _ _ => .ok .none) "I think I have severe Chest Pain" 0 .none []
    "Chest Pain" "chest pain" (by decide) (by decide) (by decide)

/-! ## Heap lemmas -/

theorem get?_set_self : ∀ (l : Heap) (r : Nat) (v : List PyVal), r < l.length →
    (l.set r v).get? r = Option.some v
  | [], r, v, hr => absurd hr (by simp)
  | _ :: _, 0, _, _ => rfl
  | _ :: t, r + 1, v, hr => get?_set_self t r v (by simpa using hr)

theorem get?_set_ne : ∀ (l : Heap) (r r' : Nat) (v : List PyVal), ¬ r = r' →
    (l.set r v).get? r' = l.get? r'
  | [], _, _, _, _ => rfl
  | _ :: _, 0, 0, _, hne => absurd rfl hne
  | _ :: _, 0, _ + 1, _, _ => rfl
  | _ :: _, _ + 1, 0, _, _ => rfl
  | _ :: t, r + 1, r' + 1, v, hne => get?_set_ne t r r' v (fun hh => hne (by rw [hh]))

theorem get?_append_lt : ∀ (l₁ l₂ : Heap) (r : Nat), r < l₁.length →
    (l₁ ++ l₂).get? r = l₁.get? r
  | [], _, r, hr => absurd hr (by simp)
  | _ :: _, _, 0, _ => rfl
  | _ :: t, l₂, r + 1, hr => get?_append_lt t l₂ r (by simpa using hr)

theorem get?_append_self_len : ∀ (l₁ : Heap) (x : List PyVal),
    (l₁ ++ [x]).get? l₁.length = Option.some x
  | [], _ => rfl
  | _ :: t, x => get?_append_self_len t x

theorem length_appendRef (h : Heap) (r : Nat) (v : PyVal) :
    (appendRef h r v).length = h.length := by
  simp [appendRef]

theorem length_writeRef (h : Heap) (r : Nat) (l : List PyVal) :
    (writeRef h r l).length = h.length := by
  simp [writeRef]

theorem readRef_appendRef_self (h : Heap) (r : Nat) (v : PyVal) (hr : r < h.length) :
    readRef (appendRef h r v) r = readRef h r ++ [v] := by
  unfold appendRef readRef
  rw [get?_set_self _ _ _ hr]
  rfl

theorem readRef_appendRef_ne (h : Heap) (r r' : Nat) (v : PyVal) (hne : ¬ r = r') :
    readRef (appendRef h r v) r' = readRef h r' := by
  unfold appendRef readRef
  rw [get?_set_ne _ _ _ _ hne]

theorem readRef_writeRef_ne (h : Heap) (r r' : Nat) (l : List PyVal) (hne : ¬ r = r') :
    readRef (writeRef h r l) r' = readRef h r' := by
  unfold writeRef readRef
  rw [get?_set_ne _ _ _ _ hne]

theorem readRef_alloc_self (h : Heap) (l : List PyVal) :
    readRef ((allocRef h l).1) ((allocRef h l).2) = l := by
  unfold allocRef readRef
  rw [get?_append_self_len]
  rfl

theorem readRef_alloc_lt (h : Heap) (l : List PyVal) (r : Nat) (hr : r < h.length) :
    readRef (h ++ [l]) r = readRef h r := by
  unfold readRef
  rw [get?_append_lt _ _ _ hr]

/-! ## The loop bound (claim C2) -/

/-- Once the iteration budget is exhausted, the loop makes no further LLM
calls: the reported call count is unchanged. -/
theorem generate_response_loop_post_calls (llm : Nat → Except String ModelMsgV)
    (loads : String → Except String PyVal) (dumps : PyVal → Except String String)
    (tools : List String) (providerExec : PyVal → PyVal → Except String PyVal)
    (fhir_data : PyVal) (msgs_ref : Nat) (h : Heap) (iteration calls : Nat)
    (hge : ¬ iteration < 5) :
    (generate_response_loop llm loads dumps tools providerExec fhir_data msgs_ref h
      iteration calls).2.2 = calls := by
  rw [generate_response_loop, if_neg hge]
  repeat' split
  all_goals rfl

/-- The loop performs at most `5 - iteration` further LLM calls. -/
theorem generate_response_loop_calls_le (llm : Nat → Except String ModelMsgV)
    (loads : String → Except String PyVal) (dumps : PyVal → Except String String)
    (tools : List String) (providerExec : PyVal → PyVal → Except String PyVal)
    (fhir_data : PyVal) (msgs_ref : Nat) :
    ∀ (fuel iteration calls : Nat) (h : Heap), 5 - iteration ≤ fuel →
    (generate_response_loop llm loads dumps tools providerExec fhir_data msgs_ref h
      iteration calls).2.2 ≤ calls + (5 - iteration) := by
  intro fuel
  induction fuel with
  | zero =>
    intro iteration calls h hf
    rw [generate_response_loop_post_calls _ _ _ _ _ _ _ _ _ _ (by omega)]
    omega
  | succ fuel ih =>
    intro iteration calls h hf
    by_cases hlt : iteration < 5
    · rw [generate_response_loop, if_pos hlt]
      cases hl : llm calls with
      | error e => simp; omega
      | ok message =>
        by_cases htc : message.tool_calls.isEmpty
        · simp only [htc, if_true]
          omega
        · rw [Bool.not_eq_true] at htc
          simp only [htc, Bool.false_eq_true, if_false]
          cases hp : process_tool_calls loads dumps tools providerExec fhir_data msgs_ref
              message.tool_calls (appendRef h msgs_ref (assistant_dict message)) with
          | mk h2 res =>
            cases res with
            | error e => simp; omega
            | ok u =>
              have hle := ih (iteration + 1) (calls + 1) h2 (by omega)
              simp only [Prod.mk.eta]
              calc (generate_response_loop llm loads dumps tools providerExec fhir_data
                    msgs_ref h2 (iteration + 1) (calls + 1)).2.2 ≤
                  (calls + 1) + (5 - (iteration + 1)) := hle
                _ ≤ calls + (5 - iteration) := by omega
    · rw [generate_response_loop_post_calls _ _ _ _ _ _ _ _ _ _ hlt]
      omega

/-- `generate_response` never makes more than 5 LLM calls, for any
inputs and collaborators. -/
theorem generate_response_calls_le (llm : Nat → Except String ModelMsgV)
    (loads : String → Except String PyVal) (dumps : PyVal → Except String String)
    (tools : List String) (providerExec : PyVal → PyVal → Except String PyVal)
    (user_message : String) (conv_ref : Nat) (fhir_data : PyVal) (h : Heap) :
    (generate_response llm loads dumps tools providerExec user_message conv_ref
      fhir_data h).2.2 ≤ 5 := by
  unfold generate_response
  by_cases hce : check_emergency user_message
  · rw [if_pos hce]
    simp
  · rw [if_neg hce]
    split
    all_goals split
    all_goals first
      | simp
      | exact le_trans
          (generate_response_loop_calls_le _ _ _ _ _ _ _ 5 0 0 _ (by omega)) (by omega)

/-- Whether an `Except` computation returned normally. -/
def isOkE {α : Type} (x : Except String α) : Bool :=
  match x with
  | .ok _ => true
  | .error _ => false

/-- When argument parsing and result serialization succeed, the tool
loop appends exactly one `tool`-role message per requested call and
returns normally. -/
theorem process_tool_calls_spec (loads : String → Except String PyVal)
    (dumps : PyVal → Except String String) (tools : List String)
    (providerExec : PyVal → PyVal → Except String PyVal) (fhir_data : PyVal) (msgs_ref : Nat)
    (hl : ∀ s, isOkE (loads s) = true) (hd : ∀ v, isOkE (dumps v) = true) :
    ∀ (tcs : List ToolCallV) (h : Heap), msgs_ref < h.length →
    ∃ h2 ds, process_tool_calls loads dumps tools providerExec fhir_data msgs_ref tcs h =
        (h2, .ok ()) ∧
      h2.length = h.length ∧
      readRef h2 msgs_ref = readRef h msgs_ref ++ ds ∧
      ds.length = tcs.length ∧
      ∀ d ∈ ds, pyGetD d "role" .none = .ok (.str "tool") := by
  intro tcs
  induction tcs with
  | nil =>
    intro h hr
    exact ⟨h, [], rfl, rfl, by simp, rfl, by simp⟩
  | cons tc rest ih =>
    intro h hr
    cases hload : loads tc.arguments with
    | error e =>
      have hx := hl tc.arguments
      rw [hload] at hx
      simp [isOkE] at hx
    | ok args =>
      cases hdump : dumps (execute_tool tools providerExec tc.name args fhir_data) with
      | error e =>
        have hx := hd (execute_tool tools providerExec tc.name args fhir_data)
        rw [hdump] at hx
        simp [isOkE] at hx
      | ok content =>
        have hr' : msgs_ref < (appendRef h msgs_ref (.dict [("role", .str "tool"),
            ("tool_call_id", .str tc.id), ("content", .str content)])).length := by
          rw [length_appendRef]
          exact hr
        obtain ⟨h2, ds, heq, hlen, hread, hdslen, hall⟩ := ih _ hr'
        refine ⟨h2, .dict [("role", .str "tool"), ("tool_call_id", .str tc.id),
          ("content", .str content)] :: ds, ?_, ?_, ?_, ?_, ?_⟩
        · simp only [process_tool_calls, hload, hdump]
          exact heq
        · rw [hlen, length_appendRef]
        · rw [hread, readRef_appendRef_self _ _ _ hr]
          simp [List.append_assoc]
        · simp [hdslen]
        · intro d hd'
          rcases List.mem_cons.mp hd' with rfl | hmem
          · simp [pyGetD, dget]
          · exact hall d hmem

/-- Once the budget is exhausted and the last message is a `tool`
message, the loop returns the fixed issue fallback without touching the
heap or the call count. -/
theorem generate_response_loop_exhausted (llm : Nat → Except String ModelMsgV)
    (loads : String → Except String PyVal) (dumps : PyVal → Except String String)
    (tools : List String) (providerExec : PyVal → PyVal → Except String PyVal)
    (fhir_data : PyVal) (msgs_ref : Nat) (h : Heap) (iteration calls : Nat)
    (hge : ¬ iteration < 5)
    (hlast : ∀ last, (readRef h msgs_ref).getLast? = Option.some last →
      pyGetD last "role" .none = .ok (.str "tool")) :
    generate_response_loop llm loads dumps tools providerExec fhir_data msgs_ref h
      iteration calls =
      (h, .ok (.str "I apologize, but I encountered an issue processing your request."),
        calls) := by
  rw [generate_response_loop, if_neg hge]
  cases hg : (readRef h msgs_ref).getLast? with
  | none => rfl
  | some last =>
    have hrole := hlast last hg
    simp [hrole]

theorem getLast?_append_right {α : Type} {l₁ l₂ : List α} (h : l₂ ≠ []) :
    (l₁ ++ l₂).getLast? = l₂.getLast? := by
  rw [List.getLast?_append]
  cases hx : l₂.getLast? with
  | none => exact absurd (List.getLast?_eq_none_iff.mp hx) h
  | some a => rfl

theorem mem_of_getLast?_eq {α : Type} {l : List α} {a : α}
    (h : l.getLast? = Option.some a) : a ∈ l := by
  obtain ⟨hne, heq⟩ := List.mem_getLast?_eq_getLast (show a ∈ l.getLast? by rw [h]; rfl)
  rw [heq]
  exact List.getLast_mem hne

/-- Scenario of claim C2: when the model requests at least one tool call
on every iteration and argument parsing and serialization succeed, the
loop runs its full budget and ends in the fixed issue fallback, making
exactly `5 - iteration` further LLM calls. -/
theorem generate_response_loop_scenario (llm : Nat → Except String ModelMsgV)
    (loads : String → Except String PyVal) (dumps : PyVal → Except String String)
    (tools : List String) (providerExec : PyVal → PyVal → Except String PyVal)
    (fhir_data : PyVal) (msgs_ref : Nat)
    (hllm : ∀ n, ∃ m, llm n = .ok m ∧ ¬ m.tool_calls = [])
    (hl : ∀ s, isOkE (loads s) = true) (hd : ∀ v, isOkE (dumps v) = true) :
    ∀ (fuel iteration calls : Nat) (h : Heap), 5 - iteration ≤ fuel → msgs_ref < h.length →
    (iteration < 5 ∨ (∀ last, (readRef h msgs_ref).getLast? = Option.some last →
      pyGetD last "role" .none = .ok (.str "tool"))) →
    ∃ h2, generate_response_loop llm loads dumps tools providerExec fhir_data msgs_ref h
        iteration calls =
      (h2, .ok (.str "I apologize, but I encountered an issue processing your request."),
        calls + (5 - iteration)) := by
  intro fuel
  induction fuel with
  | zero =>
    intro iteration calls h hf hr hdisj
    have hge : ¬ iteration < 5 := by omega
    rcases hdisj with hlt | hlast
    · exact absurd hlt hge
    · refine ⟨h, ?_⟩
      rw [generate_response_loop_exhausted _ _ _ _ _ _ _ _ _ _ hge hlast]
      have h0 : 5 - iteration = 0 := by omega
      rw [h0]
      rfl
  | succ fuel ih =>
    intro iteration calls h hf hr hdisj
    by_cases hlt : iteration < 5
    · obtain ⟨m, hm, htc⟩ := hllm calls
      have hmE : m.tool_calls.isEmpty = false := by
        cases hx : m.tool_calls with
        | nil => exact absurd hx htc
        | cons a tl => rfl
      rw [generate_response_loop, if_pos hlt]
      simp only [hm, hmE, Bool.false_eq_true, if_false]
      obtain ⟨h2, ds, hptc, hlen, hread, hdslen, hall⟩ :=
        process_tool_calls_spec loads dumps tools providerExec fhir_data msgs_ref hl hd
          m.tool_calls (appendRef h msgs_ref (assistant_dict m))
          (by rw [length_appendRef]; exact hr)
      simp only [hptc]
      have hr2 : msgs_ref < h2.length := by
        rw [hlen, length_appendRef]
        exact hr
      have hds : ds ≠ [] := by
        intro hnil
        rw [hnil] at hdslen
        exact htc (List.length_eq_zero.mp hdslen.symm)
      have hlast2 : ∀ last, (readRef h2 msgs_ref).getLast? = Option.some last →
          pyGetD last "role" .none = .ok (.str "tool") := by
        intro last hg
        rw [hread, getLast?_append_right hds] at hg
        exact hall last (mem_of_getLast?_eq hg)
      obtain ⟨h3, hloop⟩ := ih (iteration + 1) (calls + 1) h2 (by omega) hr2 (Or.inr hlast2)
      refine ⟨h3, ?_⟩
      have harith : (calls + 1) + (5 - (iteration + 1)) = calls + (5 - iteration) := by omega
      rw [hloop, harith]
    · rcases hdisj with h' | hlast
      · exact absurd h' hlt
      · refine ⟨h, ?_⟩
        rw [generate_response_loop_exhausted _ _ _ _ _ _ _ _ _ _ hlt hlast]
        have h0 : 5 - iteration = 0 := by omega
        rw [h0]
        rfl

/-- The history copy succeeds when every message subscripts cleanly, and
it only appends (heap length preserved). -/
theorem append_history_ok (msgs_ref : Nat) : ∀ (msgs : List PyVal) (h : Heap),
    (∀ m ∈ msgs, isOkE (pySubscr m "role") = true ∧ isOkE (pySubscr m "content") = true) →
    ∃ h2, append_history msgs_ref msgs h = (h2, .ok ()) ∧ h2.length = h.length := by
  intro msgs
  induction msgs with
  | nil => exact fun h _ => ⟨h, rfl, rfl⟩
  | cons msg rest ih =>
    intro h hmsgs
    obtain ⟨hrole, hcontent⟩ := hmsgs msg (List.mem_cons_self _ _)
    cases hr : pySubscr msg "role" with
    | error e => rw [hr] at hrole; simp [isOkE] at hrole
    | ok r =>
      cases hc : pySubscr msg "content" with
      | error e => rw [hc] at hcontent; simp [isOkE] at hcontent
      | ok c =>
        obtain ⟨h2, heq, hlen⟩ := ih (appendRef h msgs_ref (.dict [("role", r), ("content", c)]))
          (fun m hm => hmsgs m (List.mem_cons_of_mem _ hm))
        refine ⟨h2, ?_, ?_⟩
        · simp only [append_history, hr, hc]
          exact heq
        · rw [hlen, length_appendRef]

/-- `_build_messages` succeeds on a well-formed history list; the
messages reference is the input heap's length and the heap grows by
exactly the new messages list. -/
theorem build_messages_h_ok (dumps : PyVal → Except String String) (fhir_data : PyVal)
    (h : Heap) (hist_ref : Nat) (hlt : hist_ref < h.length)
    (hh : ∀ m ∈ readRef h hist_ref,
      isOkE (pySubscr m "role") = true ∧ isOkE (pySubscr m "content") = true) :
    ∃ h2, build_messages_h dumps hist_ref fhir_data h = ((h2, h.length), .ok ()) ∧
      h2.length = h.length + 1 := by
  unfold build_messages_h
  simp only [allocRef]
  have hread : ∀ hmid : Heap, hmid = (if pyTruthy fhir_data then
      writeRef (h ++ [[.dict [("role", .str "system"), ("content", .str SYSTEM_PROMPT)]]])
        h.length [.dict [("role", .str "system"),
          ("content", .str (build_system_content dumps fhir_data))]]
    else h ++ [[.dict [("role", .str "system"), ("content", .str SYSTEM_PROMPT)]]]) →
      readRef hmid hist_ref = readRef h hist_ref ∧ hmid.length = h.length + 1 := by
    intro hmid hdef
    by_cases hfd : pyTruthy fhir_data
    · rw [hdef, if_pos hfd]
      constructor
      · rw [readRef_writeRef_ne _ _ _ _ (by omega), readRef_alloc_lt _ _ _ hlt]
      · rw [length_writeRef]
        simp
    · rw [hdef, if_neg hfd]
      exact ⟨readRef_alloc_lt _ _ _ hlt, by simp⟩
  obtain ⟨hrd, hln⟩ := hread _ rfl
  obtain ⟨h2, heq, hlen⟩ := append_history_ok h.length (readRef _ hist_ref) _
    (by rw [hrd]; exact hh)
  rw [heq]
  exact ⟨h2, rfl, by rw [hlen, hln]⟩

/-- C2: the orchestration loop never makes more than the configured 5
LLM calls (third conjunct, for all inputs); and in the scenario where
the model requests a tool call on every iteration (with well-formed
history and parse/serialize collaborators that return normally),
`generate_response` makes exactly 5 LLM calls and returns the fixed
bounded-iteration fallback message instead of calling the LLM again. -/
theorem orchestration_loop_bounded (llm : Nat → Except String ModelMsgV)
    (loads : String → Except String PyVal) (dumps : PyVal → Except String String)
    (tools : List String) (providerExec : PyVal → PyVal → Except String PyVal)
    (user_message : String) (conv_ref : Nat) (fhir_data : PyVal) (h : Heap)
    (hne : check_emergency user_message = false)
    (hhist : ∀ m ∈ readRef h conv_ref,
      isOkE (pySubscr m "role") = true ∧ isOkE (pySubscr m "content") = true)
    (hllm : ∀ n, ∃ r, llm n = .ok r ∧ ¬ r.tool_calls = [])
    (hl : ∀ s, isOkE (loads s) = true) (hd : ∀ v, isOkE (dumps v) = true) :
    (generate_response llm loads dumps tools providerExec user_message conv_ref
        fhir_data h).2.1 =
      .ok (.str "I apologize, but I encountered an issue processing your request.") ∧
    (generate_response llm loads dumps tools providerExec user_message conv_ref
        fhir_data h).2.2 = 5 ∧
    ∀ (llm' : Nat → Except String ModelMsgV) (loads' : String → Except String PyVal)
      (dumps' : PyVal → Except String String) (tools' : List String)
      (pe' : PyVal → PyVal → Except String PyVal) (um' : String) (cr' : Nat)
      (fd' : PyVal) (h' : Heap),
      (generate_response llm' loads' dumps' tools' pe' um' cr' fd' h').2.2 ≤ 5 := by
  set conv' := readRef h conv_ref ++
    [PyVal.dict [("role", PyVal.str "user"), ("content", PyVal.str user_message)]] with hconv
  have hh1 : h.length < (h ++ [conv']).length := by simp
  have hreadc : readRef (h ++ [conv']) h.length = conv' := by
    unfold readRef
    rw [get?_append_self_len]
    rfl
  have hh2 : ∀ m ∈ readRef (h ++ [conv']) h.length,
      isOkE (pySubscr m "role") = true ∧ isOkE (pySubscr m "content") = true := by
    rw [hreadc]
    intro m hm
    rcases List.mem_append.mp hm with hm1 | hm2
    · exact hhist m hm1
    · rw [List.mem_singleton] at hm2
      subst hm2
      exact ⟨rfl, rfl⟩
  obtain ⟨h2, hbm, hlen2⟩ := build_messages_h_ok dumps fhir_data (h ++ [conv']) h.length hh1 hh2
  obtain ⟨h3, hloop⟩ := generate_response_loop_scenario llm loads dumps tools providerExec
    fhir_data ((h ++ [conv']).length) hllm hl hd 5 0 0 h2 (by omega) (by omega) (Or.inl (by omega))
  have hfull : generate_response llm loads dumps tools providerExec user_message conv_ref
      fhir_data h =
      (h3, .ok (.str "I apologize, but I encountered an issue processing your request."), 5) := by
    unfold generate_response
    rw [if_neg (by simp [hne])]
    simp only [allocRef, ← hconv]
    simp only [hbm, hloop]
  exact ⟨by rw [hfull], by rw [hfull], fun llm' loads' dumps' tools' pe' um' cr' fd' h' =>
    generate_response_calls_le llm' loads' dumps' tools' pe' um' cr' fd' h'⟩

/-- Witness for C2: an always-tool-calling model drives the loop through
exactly 5 LLM calls and the fixed issue fallback is returned. -/
theorem orchestration_loop_bounded_witness :
    check_emergency "How are you today" = false ∧
    (generate_response
      (fun _ => .ok ⟨Option.none, [⟨"call_1", "function", "search_trials", "null"⟩]⟩)
      (fun _ => .ok .none) (fun _ => .ok "null") [] (fun _ _ => .ok .none)
      "How are you today" 0 .none [[]]).2.1 =
      .ok (.str "I apologize, but I encountered an issue processing your request.") ∧
    (generate_response
      (fun _ => .ok ⟨Option.none, [⟨"call_1", "function", "search_trials", "null"⟩]⟩)
      (fun _ => .ok .none) (fun _ => .ok "null") [] (fun _ _ => .ok .none)
      "How are you today" 0 .none [[]]).2.2 = 5 := by
  have hmain := orchestration_loop_bounded
    (fun _ => .ok ⟨Option.none, [⟨"call_1", "function", "search_trials", "null"⟩]⟩)
    (fun _ => .ok .none) (fun _ => .ok "null") [] (fun _ _ => .ok .none)
    "How are you today" 0 .none [[]]
    (by decide)
    (by intro m hm; simp [readRef] at hm)
    (fun n => ⟨_, rfl, by decide⟩)
    (fun s => rfl) (fun v => rfl)
  exact ⟨by decide, hmain.1, hmain.2.1⟩

/-! ## Frame property (claim C10): the caller's history list is never
mutated -/

theorem process_tool_calls_frame (loads : String → Except String PyVal)
    (dumps : PyVal → Except String String) (tools : List String)
    (providerExec : PyVal → PyVal → Except String PyVal) (fhir_data : PyVal)
    (msgs_ref r : Nat) (hne : ¬ msgs_ref = r) :
    ∀ (tcs : List ToolCallV) (h : Heap),
    ((process_tool_calls loads dumps tools providerExec fhir_data msgs_ref tcs h).1).get? r =
      h.get? r := by
  intro tcs
  induction tcs with
  | nil => intro h; rfl
  | cons tc rest ih =>
    intro h
    cases hl : loads tc.arguments with
    | error e => simp [process_tool_calls, hl]
    | ok args =>
      cases hdm : dumps (execute_tool tools providerExec tc.name args fhir_data) with
      | error e => simp [process_tool_calls, hl, hdm]
      | ok content =>
        simp only [process_tool_calls, hl, hdm]
        rw [ih]
        unfold appendRef
        rw [get?_set_ne _ _ _ _ hne]

theorem generate_response_loop_frame (llm : Nat → Except String ModelMsgV)
    (loads : String → Except String PyVal) (dumps : PyVal → Except String String)
    (tools : List String) (providerExec : PyVal → PyVal → Except String PyVal)
    (fhir_data : PyVal) (msgs_ref r : Nat) (hne : ¬ msgs_ref = r) :
    ∀ (fuel iteration calls : Nat) (h : Heap), 5 - iteration ≤ fuel →
    ((generate_response_loop llm loads dumps tools providerExec fhir_data msgs_ref h
      iteration calls).1).get? r = h.get? r := by
  intro fuel
  induction fuel with
  | zero =>
    intro iteration calls h hf
    rw [generate_response_loop, if_neg (by omega)]
    repeat' split
    all_goals rfl
  | succ fuel ih =>
    intro iteration calls h hf
    by_cases hlt : iteration < 5
    · rw [generate_response_loop, if_pos hlt]
      cases hl : llm calls with
      | error e => rfl
      | ok m =>
        by_cases htc : m.tool_calls.isEmpty
        · simp only [htc, if_true]
          unfold appendRef
          rw [get?_set_ne _ _ _ _ hne]
        · rw [Bool.not_eq_true] at htc
          simp only [htc, Bool.false_eq_true, if_false]
          cases hp : process_tool_calls loads dumps tools providerExec fhir_data msgs_ref
              m.tool_calls (appendRef h msgs_ref (assistant_dict m)) with
          | mk h2 res =>
            have hf2 := process_tool_calls_frame loads dumps tools providerExec fhir_data
              msgs_ref r hne m.tool_calls (appendRef h msgs_ref (assistant_dict m))
            rw [hp] at hf2
            have happ : (appendRef h msgs_ref (assistant_dict m)).get? r = h.get? r := by
              unfold appendRef
              rw [get?_set_ne _ _ _ _ hne]
            cases res with
            | error e =>
              calc h2.get? r = (appendRef h msgs_ref (assistant_dict m)).get? r := hf2
                _ = h.get? r := happ
            | ok u =>
              calc ((generate_response_loop llm loads dumps tools providerExec fhir_data
                    msgs_ref h2 (iteration + 1) (calls + 1)).1).get? r
                  = h2.get? r := ih (iteration + 1) (calls + 1) h2 (by omega)
                _ = (appendRef h msgs_ref (assistant_dict m)).get? r := hf2
                _ = h.get? r := happ
    · rw [generate_response_loop, if_neg hlt]
      repeat' split
      all_goals rfl

theorem append_history_frame (msgs_ref r : Nat) (hne : ¬ msgs_ref = r) :
    ∀ (msgs : List PyVal) (h : Heap),
    ((append_history msgs_ref msgs h).1).get? r = h.get? r := by
  intro msgs
  induction msgs with
  | nil => intro h; rfl
  | cons msg rest ih =>
    intro h
    cases hr : pySubscr msg "role" with
    | error e => simp [append_history, hr]
    | ok rv =>
      cases hc : pySubscr msg "content" with
      | error e => simp [append_history, hr, hc]
      | ok cv =>
        simp only [append_history, hr, hc]
        rw [ih]
        unfold appendRef
        rw [get?_set_ne _ _ _ _ hne]

theorem build_messages_h_ref (dumps : PyVal → Except String String) (hist_ref : Nat)
    (fhir_data : PyVal) (h : Heap) :
    (build_messages_h dumps hist_ref fhir_data h).1.2 = h.length := rfl

theorem build_messages_h_frame (dumps : PyVal → Except String String) (hist_ref : Nat)
    (fhir_data : PyVal) (r : Nat) (h : Heap) (hr : r < h.length) :
    ((build_messages_h dumps hist_ref fhir_data h).1.1).get? r = h.get? r := by
  unfold build_messages_h
  dsimp only [allocRef]
  have hne : ¬ h.length = r := by omega
  rw [append_history_frame _ _ hne]
  by_cases hfd : pyTruthy fhir_data
  · rw [if_pos hfd]
    unfold writeRef
    rw [get?_set_ne _ _ _ _ hne, get?_append_lt _ _ _ hr]
  · rw [if_neg hfd]
    rw [get?_append_lt _ _ _ hr]

/-- C10: `generate_response` never mutates the caller's
`conversation_history` list: the list object behind `conv_ref` is the
same (same length, same elements) after the call as before — the user
message and all assistant/tool messages are appended only to the freshly
allocated history copy and messages list. -/
theorem generate_response_preserves_history (llm : Nat → Except String ModelMsgV)
    (loads : String → Except String PyVal) (dumps : PyVal → Except String String)
    (tools : List String) (providerExec : PyVal → PyVal → Except String PyVal)
    (user_message : String) (conv_ref : Nat) (fhir_data : PyVal) (h : Heap)
    (hcr : conv_ref < h.length) :
    ((generate_response llm loads dumps tools providerExec user_message conv_ref
      fhir_data h).1).get? conv_ref = h.get? conv_ref := by
  unfold generate_response
  by_cases hce : check_emergency user_message
  · rw [if_pos hce]
  · rw [if_neg hce]
    dsimp only [allocRef]
    have hlt' : conv_ref < (h ++ [readRef h conv_ref ++
        [PyVal.dict [("role", PyVal.str "user"),
          ("content", PyVal.str user_message)]]]).length := by
      simp
      omega
    have hbf := build_messages_h_frame dumps h.length fhir_data conv_ref
      (h ++ [readRef h conv_ref ++ [PyVal.dict [("role", PyVal.str "user"),
        ("content", PyVal.str user_message)]]]) hlt'
    have hba := get?_append_lt h [readRef h conv_ref ++
      [PyVal.dict [("role", PyVal.str "user"), ("content", PyVal.str user_message)]]]
      conv_ref hcr
    have hbr := build_messages_h_ref dumps h.length fhir_data
      (h ++ [readRef h conv_ref ++ [PyVal.dict [("role", PyVal.str "user"),
        ("content", PyVal.str user_message)]]])
    cases hb : build_messages_h dumps h.length fhir_data
        (h ++ [readRef h conv_ref ++ [PyVal.dict [("role", PyVal.str "user"),
          ("content", PyVal.str user_message)]]]) with
    | mk pa bres =>
      cases pa with
      | mk h2 msgs_ref =>
        rw [hb] at hbf hbr
        cases bres with
        | error e =>
          calc h2.get? conv_ref
              = (h ++ [readRef h conv_ref ++ [PyVal.dict [("role", PyVal.str "user"),
                  ("content", PyVal.str user_message)]]]).get? conv_ref := hbf
            _ = h.get? conv_ref := hba
        | ok u =>
          have hmr : ¬ msgs_ref = conv_ref := by
            have : msgs_ref = (h ++ [readRef h conv_ref ++
                [PyVal.dict [("role", PyVal.str "user"),
                  ("content", PyVal.str user_message)]]]).length := hbr
            simp at this
            omega
          calc ((generate_response_loop llm loads dumps tools providerExec fhir_data
                msgs_ref h2 0 0).1).get? conv_ref
              = h2.get? conv_ref :=
                generate_response_loop_frame llm loads dumps tools providerExec fhir_data
                  msgs_ref conv_ref hmr 5 0 0 h2 (by omega)
            _ = (h ++ [readRef h conv_ref ++ [PyVal.dict [("role", PyVal.str "user"),
                  ("content", PyVal.str user_message)]]]).get? conv_ref := hbf
            _ = h.get? conv_ref := hba

/-- Witness for C10: a one-message history survives a full
no-tool-call turn unchanged. -/
theorem generate_response_preserves_history_witness :
    0 < ([[PyVal.dict [("role", PyVal.str "user"), ("content", PyVal.str "hi")]]] : Heap).length ∧
    ((generate_response (fun _ => .ok ⟨Option.some "Hello!", []⟩) (fun _ => .ok .none)
      (fun _ => .ok "null") [] (fun _ _ => .ok .none) "How are you today" 0 .none
      [[PyVal.dict [("role", PyVal.str "user"), ("content", PyVal.str "hi")]]]).1).get? 0 =
      ([[PyVal.dict [("role", PyVal.str "user"), ("content", PyVal.str "hi")]]] : Heap).get? 0 :=
  ⟨by decide, generate_response_preserves_history (fun _ => .ok ⟨Option.some "Hello!", []⟩)
    (fun _ => .ok .none) (fun _ => .ok "null") [] (fun _ _ => .ok .none) "How are you today" 0
    .none [[PyVal.dict [("role", PyVal.str "user"), ("content", PyVal.str "hi")]]] (by decide)⟩
